import Mathlib

/-!
Project group resource: role set builder and observed-state smoother.

A shallow embedding of `internal/provider/resource/project_group.go`.

* `types_String`, `types_Bool` embed the three-valued attribute values of the
  Terraform plugin framework (`types.String`, `types.Bool`).
* `ProjectGroupResource.Create.rolesLoop` / `ProjectGroupResource.Update.rolesLoop`
  embed the `for _, el := range plan.Roles` loops of `Create` and `Update`
  (explicit state passing: the slice built so far, the permanent-role flag and
  the number of clock readings taken so far).
* `ProjectGroupResource.Read.planRoles` embeds the smoothing loop of `Read`.
* `ProjectGroupResource.Create`, `.Read`, `.Update`, `.Delete` embed the four
  lifecycle methods: the client is a record of functions, and a run returns an
  `Outcome` (the error diagnostics added, the write to the state, and the client
  calls in order).

The Go standard library calls `time.Now().UTC()`, `time.Parse(time.RFC3339, ·)`
and `Time.Format(time.RFC3339)` are parameters of the embedded functions
(`clock`, `parse`, `format`), and so is the framework method `String()` of
`types.String` (`render`) and the framework rendering of a set element
(`describe`); general theorems hold for every value of these parameters.
Concrete evaluations use the models `parseRFC3339`, `formatRFC3339`,
`renderString` and `describeRole` below.
-/

/-! ## Framework attribute values -/

/-- Embedding of `types.String`: a null, unknown or known string. -/
inductive types_String where
  | StringNull : types_String
  | StringUnknown : types_String
  | StringValue (s : String) : types_String
deriving DecidableEq, Repr

/-- Embedding of `types.Bool`: a null, unknown or known boolean. -/
inductive types_Bool where
  | BoolNull : types_Bool
  | BoolUnknown : types_Bool
  | BoolValue (b : Bool) : types_Bool
deriving DecidableEq, Repr

/-- The method `ValueString()`: the known value, or the empty string for null and unknown. -/
def types_String.ValueString : types_String → String
  | .StringValue s => s
  | .StringNull => ""
  | .StringUnknown => ""

/-- The method `IsNull()` of `types.String`. -/
def types_String.IsNull : types_String → Bool
  | .StringNull => true
  | .StringUnknown => false
  | .StringValue _ => false

/-- The method `ValueBool()`: the known value, or `false` for null and unknown. -/
def types_Bool.ValueBool : types_Bool → Bool
  | .BoolValue b => b
  | .BoolNull => false
  | .BoolUnknown => false

/-- The method `IsNull()` of `types.Bool`. -/
def types_Bool.IsNull : types_Bool → Bool
  | .BoolNull => true
  | .BoolUnknown => false
  | .BoolValue _ => false

/-! ## Time values -/

/-- A `time.Time` value: wall-clock fields and the zone offset in seconds east of UTC. -/
structure Time where
  year : Nat
  month : Nat
  day : Nat
  hour : Nat
  minute : Nat
  second : Nat
  nanosecond : Nat
  offset : Int
deriving DecidableEq, Repr

/-- Value of a decimal digit character. -/
def digitVal (c : Char) : Option Nat :=
  if c.isDigit then some (c.toNat - 48) else none

/-- Value of a two-digit decimal field. -/
def num2 (a b : Char) : Option Nat :=
  match digitVal a, digitVal b with
  | some x, some y => some (10 * x + y)
  | _, _ => none

/-- Number of days of a month in the proleptic Gregorian calendar. -/
def daysIn (year month : Nat) : Nat :=
  if month = 2 then
    (if year % 4 = 0 ∧ (year % 100 ≠ 0 ∨ year % 400 = 0) then 29 else 28)
  else if month = 4 ∨ month = 6 ∨ month = 9 ∨ month = 11 then 30
  else 31

/-- Reads the digits of a fractional second: the nanoseconds accumulated from
the first nine digits, and the remaining input. -/
def parseFraction : List Char → Nat → Nat → Nat × List Char
  | [], _, acc => (acc, [])
  | c :: cs, scale, acc =>
    match digitVal c with
    | some d => parseFraction cs (scale / 10) (acc + d * scale)
    | none => (acc, c :: cs)

/-- The zone suffix of an RFC 3339 timestamp: `Z` or a signed `hh:mm` offset. -/
def parseZone : List Char → Option Int
  | ['Z'] => some 0
  | [sign, h1, h2, ':', m1, m2] =>
    match num2 h1 h2, num2 m1 m2 with
    | some h, some m =>
      if h < 24 ∧ m < 60 then
        (if sign = '+' then some (Int.ofNat (h * 3600 + m * 60))
         else if sign = '-' then some (- Int.ofNat (h * 3600 + m * 60))
         else none)
      else none
    | _, _ => none
  | _ => none

/-- Model of `time.Parse(time.RFC3339, s)` on the RFC 3339 date-time grammar
`YYYY-MM-DDTHH:MM:SS[.fraction](Z|±hh:mm)` with range-checked fields;
`none` stands for a non-nil error. -/
def parseRFC3339 (s : String) : Option Time :=
  match s.toList with
  | y1 :: y2 :: y3 :: y4 :: '-' :: mo1 :: mo2 :: '-' :: d1 :: d2 :: 'T' ::
      h1 :: h2 :: ':' :: mi1 :: mi2 :: ':' :: s1 :: s2 :: rest =>
    match num2 y1 y2, num2 y3 y4, num2 mo1 mo2, num2 d1 d2,
          num2 h1 h2, num2 mi1 mi2, num2 s1 s2 with
    | some yh, some yl, some mo, some d, some h, some mi, some sec =>
      let year := 100 * yh + yl
      if 1 ≤ mo ∧ mo ≤ 12 ∧ 1 ≤ d ∧ d ≤ daysIn year mo ∧ h < 24 ∧ mi < 60 ∧ sec < 60 then
        match rest with
        | '.' :: f :: more =>
          if f.isDigit then
            match parseZone (parseFraction (f :: more) 100000000 0).2 with
            | some off =>
              some ⟨year, mo, d, h, mi, sec, (parseFraction (f :: more) 100000000 0).1, off⟩
            | none => none
          else none
        | zone =>
          match parseZone zone with
          | some off => some ⟨year, mo, d, h, mi, sec, 0, off⟩
          | none => none
      else none
    | _, _, _, _, _, _, _ => none
  | _ => none

/-- Two decimal digits of a number. -/
def pad2 (n : Nat) : String :=
  String.mk [Nat.digitChar (n / 10 % 10), Nat.digitChar (n % 10)]

/-- Model of `t.Format(time.RFC3339)`: layout `2006-01-02T15:04:05Z07:00`. -/
def formatRFC3339 (t : Time) : String :=
  pad2 (t.year / 100) ++ pad2 (t.year % 100) ++ "-" ++ pad2 t.month ++ "-" ++ pad2 t.day ++ "T" ++
    pad2 t.hour ++ ":" ++ pad2 t.minute ++ ":" ++ pad2 t.second ++
    (if t.offset = 0 then "Z"
     else (if t.offset < 0 then "-" else "+") ++
       pad2 (t.offset.natAbs / 3600) ++ ":" ++ pad2 (t.offset.natAbs / 60 % 60))

/-! ## Data model -/

/-- Modelled from the spec: the constant `TEMPORARY_RANGE_DEFAULT`, declared in a
file of the package that is not part of the sources; the canonical default range `"1h"`. -/
def TEMPORARY_RANGE_DEFAULT : String := "1h"

/-- Modelled from the spec: the constant `TEMPORARY_MODE_RELATIVE`, declared in a
file of the package that is not part of the sources; the mode `relative`. -/
def TEMPORARY_MODE_RELATIVE : String := "relative"

/-- The struct `ProjectGroupRole` (one element of the `roles` attribute). -/
structure ProjectGroupRole where
  RoleSlug : types_String
  IsTemporary : types_Bool
  TemporaryRange : types_String
  TemporaryAccessStartTime : types_String
deriving DecidableEq, Repr

/-- The struct `infisical.CreateProjectGroupRequestRoles`, with the fields `Create` sets. -/
structure CreateProjectGroupRequestRoles where
  Role : String
  IsTemporary : Bool
  TemporaryMode : String
  TemporaryRange : String
  TemporaryAccessStartTime : Time
deriving DecidableEq, Repr

/-- The struct `infisical.UpdateProjectGroupRequestRoles`, with the fields `Update` sets. -/
structure UpdateProjectGroupRequestRoles where
  Role : String
  IsTemporary : Bool
  TemporaryMode : String
  TemporaryRange : String
  TemporaryAccessStartTime : Time
deriving DecidableEq, Repr

/-- One element of `projectGroupMembership.Membership.Roles`, with the fields `Read` reads. -/
structure MembershipRole where
  Role : String
  CustomRoleId : String
  CustomRoleSlug : String
  IsTemporary : Bool
  TemporaryRange : String
  TemporaryAccessStartTime : Time
deriving DecidableEq, Repr

/-- One error diagnostic, as added by `resp.Diagnostics.AddError(summary, detail)`. -/
structure Diagnostic where
  summary : String
  detail : String
deriving DecidableEq, Repr

/-- The diagnostic of lines 157-160 (and 361-364): a start time that does not parse. -/
def parseErrorDiagnostic (el : ProjectGroupRole) : Diagnostic :=
  { summary := "Error parsing field TemporaryAccessStartTime"
    detail := "Must provider valid ISO timestamp for field TemporaryAccessStartTime " ++
      el.TemporaryAccessStartTime.ValueString ++ ", role " ++ el.RoleSlug.ValueString }

/-- The diagnostic of line 184 (and 388): no permanent role. -/
def permanentRoleDiagnostic : Diagnostic :=
  { summary := "Error assigning role to group"
    detail := "Must have atleast one permanent role" }

/-! ## Role set builder (`Create`, lines 142-186; `Update`, lines 346-390) -/

/-- The loop `for _, el := range plan.Roles` of `Create` (lines 144-181).
State: the remaining grants, the number of `time.Now()` readings taken so far,
the slice `roles` and the flag `hasAtleastOnePermanentRole`.  An error is the
early `return` of line 161. -/
def ProjectGroupResource.Create.rolesLoop (parse : String → Option Time) (clock : Nat → Time) :
    List ProjectGroupRole → Nat → List CreateProjectGroupRequestRoles → Bool →
    Except Diagnostic (List CreateProjectGroupRequestRoles × Bool)
  | [], _, roles, hasAtleastOnePermanentRole => .ok (roles, hasAtleastOnePermanentRole)
  | el :: rest, tick, roles, hasAtleastOnePermanentRole =>
    let isTemporary := el.IsTemporary.ValueBool
    let temporaryRange := el.TemporaryRange.ValueString
    let now := clock tick
    let hasAtleastOnePermanentRole :=
      if !isTemporary then true else hasAtleastOnePermanentRole
    let parsed : Option Time :=
      if el.TemporaryAccessStartTime.ValueString ≠ "" then
        parse el.TemporaryAccessStartTime.ValueString
      else some now
    match parsed with
    | none => .error (parseErrorDiagnostic el)
    | some TemporaryAccessStartTime =>
      let temporaryMode := if isTemporary then TEMPORARY_MODE_RELATIVE else ""
      let temporaryRange :=
        if isTemporary && temporaryRange == "" then TEMPORARY_RANGE_DEFAULT else temporaryRange
      ProjectGroupResource.Create.rolesLoop parse clock rest (tick + 1)
        (roles ++ [{ Role := el.RoleSlug.ValueString
                     IsTemporary := isTemporary
                     TemporaryMode := temporaryMode
                     TemporaryRange := temporaryRange
                     TemporaryAccessStartTime := TemporaryAccessStartTime }])
        hasAtleastOnePermanentRole

/-- Lines 142-186 of `Create`: the loop from the empty slice and a false flag,
then the permanent-role check. -/
def ProjectGroupResource.Create.buildRoles (parse : String → Option Time) (clock : Nat → Time)
    (planRoles : List ProjectGroupRole) : Except Diagnostic (List CreateProjectGroupRequestRoles) :=
  match ProjectGroupResource.Create.rolesLoop parse clock planRoles 0 [] false with
  | .error d => .error d
  | .ok (roles, hasAtleastOnePermanentRole) =>
    if !hasAtleastOnePermanentRole then .error permanentRoleDiagnostic else .ok roles

/-- The loop `for _, el := range plan.Roles` of `Update` (lines 348-385); the
default range is the literal `"1h"`. -/
def ProjectGroupResource.Update.rolesLoop (parse : String → Option Time) (clock : Nat → Time) :
    List ProjectGroupRole → Nat → List UpdateProjectGroupRequestRoles → Bool →
    Except Diagnostic (List UpdateProjectGroupRequestRoles × Bool)
  | [], _, roles, hasAtleastOnePermanentRole => .ok (roles, hasAtleastOnePermanentRole)
  | el :: rest, tick, roles, hasAtleastOnePermanentRole =>
    let isTemporary := el.IsTemporary.ValueBool
    let temporaryRange := el.TemporaryRange.ValueString
    let now := clock tick
    let hasAtleastOnePermanentRole :=
      if !isTemporary then true else hasAtleastOnePermanentRole
    let parsed : Option Time :=
      if el.TemporaryAccessStartTime.ValueString ≠ "" then
        parse el.TemporaryAccessStartTime.ValueString
      else some now
    match parsed with
    | none => .error (parseErrorDiagnostic el)
    | some TemporaryAccessStartTime =>
      let temporaryMode := if isTemporary then TEMPORARY_MODE_RELATIVE else ""
      let temporaryRange :=
        if isTemporary && temporaryRange == "" then "1h" else temporaryRange
      ProjectGroupResource.Update.rolesLoop parse clock rest (tick + 1)
        (roles ++ [{ Role := el.RoleSlug.ValueString
                     IsTemporary := isTemporary
                     TemporaryMode := temporaryMode
                     TemporaryRange := temporaryRange
                     TemporaryAccessStartTime := TemporaryAccessStartTime }])
        hasAtleastOnePermanentRole

/-- Lines 346-390 of `Update`: the loop from the empty slice and a false flag,
then the permanent-role check. -/
def ProjectGroupResource.Update.buildRoles (parse : String → Option Time) (clock : Nat → Time)
    (planRoles : List ProjectGroupRole) : Except Diagnostic (List UpdateProjectGroupRequestRoles) :=
  match ProjectGroupResource.Update.rolesLoop parse clock planRoles 0 [] false with
  | .error d => .error d
  | .ok (roles, hasAtleastOnePermanentRole) =>
    if !hasAtleastOnePermanentRole then .error permanentRoleDiagnostic else .ok roles

/-! ## Observed-state smoother (`Read`, lines 264-308) -/

/-- A Go `map[string]ProjectGroupRole`, as its lookup function. -/
abbrev RoleMap := String → Option ProjectGroupRole

/-- The result of `make(map[string]ProjectGroupRole)`. -/
def RoleMap.empty : RoleMap := fun _ => none

/-- The assignment `m[key] = role`. -/
def RoleMap.insert (m : RoleMap) (key : String) (role : ProjectGroupRole) : RoleMap :=
  fun k => if k = key then some role else m k

/-- Lines 264-267 of `Read`: the map from role slug to recorded role; a later
role of the same slug overwrites an earlier one. -/
def ProjectGroupResource.Read.stateRoleMap (stateRoles : List ProjectGroupRole) : RoleMap :=
  stateRoles.foldl (fun m role => m.insert role.RoleSlug.ValueString role) RoleMap.empty

/-- The body of the loop of `Read` (lines 271-303): the role presented for one
observed role `el`, given the map of recorded roles. -/
def ProjectGroupResource.Read.presentRole (format : Time → String) (stateRoleMap : RoleMap)
    (el : MembershipRole) : ProjectGroupRole :=
  let val : ProjectGroupRole :=
    { RoleSlug := .StringValue el.Role
      TemporaryRange := .StringValue el.TemporaryRange
      IsTemporary := .BoolValue el.IsTemporary
      TemporaryAccessStartTime := .StringValue (format el.TemporaryAccessStartTime) }
  let val : ProjectGroupRole :=
    if el.CustomRoleId ≠ "" then { val with RoleSlug := .StringValue el.CustomRoleSlug } else val
  let val : ProjectGroupRole :=
    match stateRoleMap val.RoleSlug.ValueString with
    | some previousRoleState =>
      let val : ProjectGroupRole :=
        if previousRoleState.IsTemporary.ValueBool && el.IsTemporary then
          (if previousRoleState.TemporaryRange.IsNull
                && el.TemporaryRange == TEMPORARY_RANGE_DEFAULT then
            { val with TemporaryRange := .StringNull }
          else val)
        else val
      if previousRoleState.IsTemporary.IsNull && !el.IsTemporary then
        { val with IsTemporary := .BoolNull }
      else val
    | none => val
  if !el.IsTemporary then
    { val with TemporaryRange := .StringNull, TemporaryAccessStartTime := .StringNull }
  else val

/-- Lines 264-308 of `Read`: the slice `planRoles` stored as the new
`state.Roles`, built by appending the presented role of every observed role. -/
def ProjectGroupResource.Read.planRoles (format : Time → String)
    (stateRoles : List ProjectGroupRole) (observed : List MembershipRole) :
    List ProjectGroupRole :=
  observed.foldl
    (fun planRoles el =>
      planRoles ++
        [ProjectGroupResource.Read.presentRole format
          (ProjectGroupResource.Read.stateRoleMap stateRoles) el])
    []

/-- The role slug `Read` presents for an observed role: the custom role slug when
the custom role id is non-empty, the role otherwise (lines 272 and 278-280). -/
def resolvedRoleSlug (el : MembershipRole) : String :=
  if el.CustomRoleId ≠ "" then el.CustomRoleSlug else el.Role

/-! ## Lifecycle operations (`Create`, `Read`, `Update`, `Delete`) -/

/-- The struct `ProjectGroupResourceModel` (lines 33-39). -/
structure ProjectGroupResourceModel where
  ProjectID : types_String
  ProjectSlug : types_String
  GroupSlug : types_String
  Roles : List ProjectGroupRole
  MembershipID : types_String
deriving DecidableEq, Repr

/-- A non-nil Go `error` returned by the client: whether it is the value
`infisicalclient.ErrNotFound`, and the text of `err.Error()`. -/
structure GoError where
  IsErrNotFound : Bool
  Error : String
deriving DecidableEq, Repr

/-- The struct `infisical.GetProjectByIdRequest`. -/
structure GetProjectByIdRequest where
  ID : String
deriving DecidableEq, Repr

/-- The result of `GetProjectById`, with the field `Create` reads. -/
structure ProjectDetail where
  Slug : String
deriving DecidableEq, Repr

/-- The struct `infisical.CreateProjectGroupRequest`. -/
structure CreateProjectGroupRequest where
  ProjectSlug : String
  GroupSlug : String
  Roles : List CreateProjectGroupRequestRoles
deriving DecidableEq, Repr

/-- The field `Membership` of the result of `CreateProjectGroup`, with the field
`Create` reads. -/
structure CreatedMembership where
  ID : String
deriving DecidableEq, Repr

/-- The result of `CreateProjectGroup`. -/
structure CreateProjectGroupResponse where
  Membership : CreatedMembership
deriving DecidableEq, Repr

/-- The struct `infisical.GetProjectGroupMembershipRequest`. -/
structure GetProjectGroupMembershipRequest where
  ProjectSlug : String
  GroupSlug : String
deriving DecidableEq, Repr

/-- The field `Membership` of the result of `GetProjectGroupMembership`, with the
field `Read` reads. -/
structure FetchedMembership where
  Roles : List MembershipRole
deriving DecidableEq, Repr

/-- The result of `GetProjectGroupMembership`. -/
structure GetProjectGroupMembershipResponse where
  Membership : FetchedMembership
deriving DecidableEq, Repr

/-- The struct `infisical.UpdateProjectGroupRequest`. -/
structure UpdateProjectGroupRequest where
  ProjectSlug : String
  GroupSlug : String
  Roles : List UpdateProjectGroupRequestRoles
deriving DecidableEq, Repr

/-- The struct `infisical.DeleteProjectGroupRequest`. -/
structure DeleteProjectGroupRequest where
  ProjectSlug : String
  GroupSlug : String
deriving DecidableEq, Repr

/-- The client `r.client`: the flag `Config.IsMachineIdentityAuth` and the five
methods the resource calls, each a function from the request to its result. -/
structure Client where
  IsMachineIdentityAuth : Bool
  GetProjectById : GetProjectByIdRequest → Except GoError ProjectDetail
  CreateProjectGroup : CreateProjectGroupRequest → Except GoError CreateProjectGroupResponse
  GetProjectGroupMembership :
    GetProjectGroupMembershipRequest → Except GoError GetProjectGroupMembershipResponse
  UpdateProjectGroup : UpdateProjectGroupRequest → Except GoError Unit
  DeleteProjectGroup : DeleteProjectGroupRequest → Except GoError Unit

/-- One call of a method of the client, with its request. -/
inductive ApiCall where
  | GetProjectById (req : GetProjectByIdRequest) : ApiCall
  | CreateProjectGroup (req : CreateProjectGroupRequest) : ApiCall
  | GetProjectGroupMembership (req : GetProjectGroupMembershipRequest) : ApiCall
  | UpdateProjectGroup (req : UpdateProjectGroupRequest) : ApiCall
  | DeleteProjectGroup (req : DeleteProjectGroupRequest) : ApiCall
deriving DecidableEq, Repr

/-- What a lifecycle method does to `resp.State`: no write, `resp.State.Set`, or
`resp.State.RemoveResource`. -/
inductive StateWrite where
  | Unchanged : StateWrite
  | Set (model : ProjectGroupResourceModel) : StateWrite
  | RemoveResource : StateWrite
deriving DecidableEq, Repr

/-- The effects of one run of a lifecycle method: the error diagnostics added to
`resp.Diagnostics`, the write to `resp.State`, and the client calls in order. -/
structure Outcome where
  Diagnostics : List Diagnostic
  State : StateWrite
  Calls : List ApiCall
deriving DecidableEq, Repr

/-- The method `Create` (lines 125-227).  `planGet` is the result of
`req.Plan.Get(ctx, &plan)`: the decoded plan, or the error diagnostic of a failed
decoding.  The check of lines 217-223 tests an `err` that is nil there and is
omitted.  The roles of a decoded plan are the elements of a set, hence pairwise
distinct, so `resp.State.Set(ctx, plan)` of line 225 accepts them. -/
def ProjectGroupResource.Create (client : Client) (parse : String → Option Time)
    (clock : Nat → Time) (planGet : Except Diagnostic ProjectGroupResourceModel) : Outcome :=
  if !client.IsMachineIdentityAuth then
    { Diagnostics :=
        [{ summary := "Unable to create project group"
           detail := "Only Machine Identity authentication is supported for this operation" }]
      State := .Unchanged
      Calls := [] }
  else
    match planGet with
    | .error d => { Diagnostics := [d], State := .Unchanged, Calls := [] }
    | .ok plan =>
      match ProjectGroupResource.Create.buildRoles parse clock plan.Roles with
      | .error d => { Diagnostics := [d], State := .Unchanged, Calls := [] }
      | .ok roles =>
        match client.GetProjectById { ID := plan.ProjectID.ValueString } with
        | .error err =>
          { Diagnostics :=
              [{ summary := "Error attaching group to project"
                 detail := "Couldn't fetch project details, unexpected error: " ++ err.Error }]
            State := .Unchanged
            Calls := [.GetProjectById { ID := plan.ProjectID.ValueString }] }
        | .ok projectDetail =>
          match client.CreateProjectGroup
              { ProjectSlug := projectDetail.Slug
                GroupSlug := plan.GroupSlug.ValueString
                Roles := roles } with
          | .error err =>
            { Diagnostics :=
                [{ summary := "Error attaching group to project"
                   detail := "Couldn't create project group to Infiscial, unexpected error: "
                     ++ err.Error }]
              State := .Unchanged
              Calls :=
                [.GetProjectById { ID := plan.ProjectID.ValueString },
                 .CreateProjectGroup
                   { ProjectSlug := projectDetail.Slug
                     GroupSlug := plan.GroupSlug.ValueString
                     Roles := roles }] }
          | .ok projectGroupResponse =>
            { Diagnostics := []
              State := .Set
                { plan with
                  ProjectSlug := .StringValue projectDetail.Slug
                  MembershipID := .StringValue projectGroupResponse.Membership.ID }
              Calls :=
                [.GetProjectById { ID := plan.ProjectID.ValueString },
                 .CreateProjectGroup
                   { ProjectSlug := projectDetail.Slug
                     GroupSlug := plan.GroupSlug.ValueString
                     Roles := roles }] }

/-- Model of the check that `resp.State.Set` applies to the set attribute `roles`
(`schema.SetNestedAttribute`, line 76): the framework compares every element with
every later one and adds one error diagnostic `Duplicate Set Element` for every pair
of equal elements; `describe` is the framework rendering of a set element. -/
def duplicateSetElementDiagnostics (describe : ProjectGroupRole → String) :
    List ProjectGroupRole → List Diagnostic
  | [] => []
  | role :: rest =>
    (rest.filter (fun other => decide (other = role))).map
        (fun other =>
          { summary := "Duplicate Set Element"
            detail := "This attribute contains duplicate values of: " ++ describe other }) ++
      duplicateSetElementDiagnostics describe rest

/-- The method `Read` (lines 230-311).  `stateGet` is the result of
`req.State.Get(ctx, &state)`.  The call `resp.State.Set(ctx, state)` of line 309
writes the state only when the framework accepts `planRoles` as a set: with two
equal presented roles it returns the diagnostics of
`duplicateSetElementDiagnostics`, which line 310 appends, and writes nothing. -/
def ProjectGroupResource.Read (client : Client) (format : Time → String)
    (describe : ProjectGroupRole → String)
    (stateGet : Except Diagnostic ProjectGroupResourceModel) : Outcome :=
  if !client.IsMachineIdentityAuth then
    { Diagnostics :=
        [{ summary := "Unable to read project group"
           detail := "Only Machine Identity authentication is supported for this operation" }]
      State := .Unchanged
      Calls := [] }
  else
    match stateGet with
    | .error d => { Diagnostics := [d], State := .Unchanged, Calls := [] }
    | .ok state =>
      match client.GetProjectGroupMembership
          { ProjectSlug := state.ProjectSlug.ValueString
            GroupSlug := state.GroupSlug.ValueString } with
      | .error err =>
        if err.IsErrNotFound then
          { Diagnostics := []
            State := .RemoveResource
            Calls :=
              [.GetProjectGroupMembership
                { ProjectSlug := state.ProjectSlug.ValueString
                  GroupSlug := state.GroupSlug.ValueString }] }
        else
          { Diagnostics :=
              [{ summary := "Error reading project group membership"
                 detail :=
                   "Couldn't read project group membership from Infiscial, unexpected error: "
                     ++ err.Error }]
            State := .Unchanged
            Calls :=
              [.GetProjectGroupMembership
                { ProjectSlug := state.ProjectSlug.ValueString
                  GroupSlug := state.GroupSlug.ValueString }] }
      | .ok projectGroupMembership =>
        let planRoles := ProjectGroupResource.Read.planRoles format state.Roles
          projectGroupMembership.Membership.Roles
        match duplicateSetElementDiagnostics describe planRoles with
        | [] =>
          { Diagnostics := []
            State := .Set { state with Roles := planRoles }
            Calls :=
              [.GetProjectGroupMembership
                { ProjectSlug := state.ProjectSlug.ValueString
                  GroupSlug := state.GroupSlug.ValueString }] }
        | diag :: diags =>
          { Diagnostics := diag :: diags
            State := .Unchanged
            Calls :=
              [.GetProjectGroupMembership
                { ProjectSlug := state.ProjectSlug.ValueString
                  GroupSlug := state.GroupSlug.ValueString }] }

/-- The method `Update` (lines 314-408).  `planGet` and `stateGet` are the results
of `req.Plan.Get` and `req.State.Get`; `render` is the framework method `String()`
of `types.String`, by which `%s` prints the group slugs at line 341.  The roles
of a decoded plan are the elements of a set, hence pairwise distinct, so
`resp.State.Set(ctx, plan)` of line 406 accepts them. -/
def ProjectGroupResource.Update (client : Client) (parse : String → Option Time)
    (clock : Nat → Time) (render : types_String → String)
    (planGet stateGet : Except Diagnostic ProjectGroupResourceModel) : Outcome :=
  if !client.IsMachineIdentityAuth then
    { Diagnostics :=
        [{ summary := "Unable to update project group"
           detail := "Only Machine Identity authentication is supported for this operation" }]
      State := .Unchanged
      Calls := [] }
  else
    match planGet with
    | .error d => { Diagnostics := [d], State := .Unchanged, Calls := [] }
    | .ok plan =>
      match stateGet with
      | .error d => { Diagnostics := [d], State := .Unchanged, Calls := [] }
      | .ok state =>
        if plan.GroupSlug ≠ state.GroupSlug then
          { Diagnostics :=
              [{ summary := "Unable to update project group"
                 detail := "Cannot change group slug, previous group: " ++
                   render state.GroupSlug ++ ", new group: " ++ render plan.GroupSlug }]
            State := .Unchanged
            Calls := [] }
        else
          match ProjectGroupResource.Update.buildRoles parse clock plan.Roles with
          | .error d => { Diagnostics := [d], State := .Unchanged, Calls := [] }
          | .ok roles =>
            match client.UpdateProjectGroup
                { ProjectSlug := state.ProjectSlug.ValueString
                  GroupSlug := plan.GroupSlug.ValueString
                  Roles := roles } with
            | .error err =>
              { Diagnostics :=
                  [{ summary := "Error assigning roles to group"
                     detail := "Couldn't update role, unexpected error: " ++ err.Error }]
                State := .Unchanged
                Calls :=
                  [.UpdateProjectGroup
                    { ProjectSlug := state.ProjectSlug.ValueString
                      GroupSlug := plan.GroupSlug.ValueString
                      Roles := roles }] }
            | .ok _ =>
              { Diagnostics := []
                State := .Set plan
                Calls :=
                  [.UpdateProjectGroup
                    { ProjectSlug := state.ProjectSlug.ValueString
                      GroupSlug := plan.GroupSlug.ValueString
                      Roles := roles }] }

/-- The method `Delete` (lines 411-438).  The method itself never writes
`resp.State`. -/
def ProjectGroupResource.Delete (client : Client)
    (stateGet : Except Diagnostic ProjectGroupResourceModel) : Outcome :=
  if !client.IsMachineIdentityAuth then
    { Diagnostics :=
        [{ summary := "Unable to delete project group"
           detail := "Only Machine Identity authentication is supported for this operation" }]
      State := .Unchanged
      Calls := [] }
  else
    match stateGet with
    | .error d => { Diagnostics := [d], State := .Unchanged, Calls := [] }
    | .ok state =>
      match client.DeleteProjectGroup
          { ProjectSlug := state.ProjectSlug.ValueString
            GroupSlug := state.GroupSlug.ValueString } with
      | .error err =>
        { Diagnostics :=
            [{ summary := "Error deleting project group"
               detail := "Couldn't delete project group from Infiscial, unexpected error: "
                 ++ err.Error }]
          State := .Unchanged
          Calls :=
            [.DeleteProjectGroup
              { ProjectSlug := state.ProjectSlug.ValueString
                GroupSlug := state.GroupSlug.ValueString }] }
      | .ok _ =>
        { Diagnostics := []
          State := .Unchanged
          Calls :=
            [.DeleteProjectGroup
              { ProjectSlug := state.ProjectSlug.ValueString
                GroupSlug := state.GroupSlug.ValueString }] }

/-- Model of the framework method `String()` of `types.String`: `<null>`,
`<unknown>`, or the value between double quotes (the `%q` form of a value without
characters to escape). -/
def renderString : types_String → String
  | .StringNull => "<null>"
  | .StringUnknown => "<unknown>"
  | .StringValue s => String.singleton (Char.ofNat 34) ++ s ++ String.singleton (Char.ofNat 34)

/-- A client with machine identity authentication whose project lookup returns the
slug `proj`, whose create call returns the membership id `m-1`, whose fetch returns
the given error, and whose update and delete calls succeed. -/
def sampleClient (fetchError : GoError) : Client :=
  { IsMachineIdentityAuth := true
    GetProjectById := fun _ => .ok { Slug := "proj" }
    CreateProjectGroup := fun _ => .ok { Membership := { ID := "m-1" } }
    GetProjectGroupMembership := fun _ => .error fetchError
    UpdateProjectGroup := fun _ => .ok ()
    DeleteProjectGroup := fun _ => .ok () }

/-- A client with machine identity authentication whose fetch returns the given
observed roles. -/
def fetchingClient (observed : List MembershipRole) : Client :=
  { sampleClient { IsErrNotFound := false, Error := "boom" } with
    GetProjectGroupMembership := fun _ => .ok { Membership := { Roles := observed } } }

/-- A rendering of a set element for concrete evaluations: its role slug. -/
def describeRole (role : ProjectGroupRole) : String :=
  role.RoleSlug.ValueString

/-- A client that is not configured for machine identity authentication. -/
def userAuthClient : Client :=
  { sampleClient { IsErrNotFound := false, Error := "boom" } with
    IsMachineIdentityAuth := false }

/-- A plan or state record of project `p-1` (slug `proj`) and the given group. -/
def sampleModel (groupSlug : String) (roles : List ProjectGroupRole) :
    ProjectGroupResourceModel :=
  { ProjectID := .StringValue "p-1"
    ProjectSlug := .StringValue "proj"
    GroupSlug := .StringValue groupSlug
    Roles := roles
    MembershipID := .StringValue "m-1" }

/-! ## Auxiliary definitions -/

/-- The value of `TemporaryAccessStartTime` after lines 147-163 for one grant, `now`
being the clock reading of line 147; `none` is the parse error of line 156. -/
def startTimeOf (parse : String → Option Time) (now : Time) (el : ProjectGroupRole) :
    Option Time :=
  if el.TemporaryAccessStartTime.ValueString ≠ "" then
    parse el.TemporaryAccessStartTime.ValueString
  else some now

/-- The request role appended at lines 174-180 for one grant and its start time. -/
def createRoleOf (el : ProjectGroupRole) (t : Time) : CreateProjectGroupRequestRoles :=
  { Role := el.RoleSlug.ValueString
    IsTemporary := el.IsTemporary.ValueBool
    TemporaryMode := if el.IsTemporary.ValueBool then TEMPORARY_MODE_RELATIVE else ""
    TemporaryRange :=
      if el.IsTemporary.ValueBool && el.TemporaryRange.ValueString == "" then
        TEMPORARY_RANGE_DEFAULT
      else el.TemporaryRange.ValueString
    TemporaryAccessStartTime := t }

/-- Field-wise copy of a create request role into an update request role. -/
def toUpdateRole (r : CreateProjectGroupRequestRoles) : UpdateProjectGroupRequestRoles :=
  { Role := r.Role
    IsTemporary := r.IsTemporary
    TemporaryMode := r.TemporaryMode
    TemporaryRange := r.TemporaryRange
    TemporaryAccessStartTime := r.TemporaryAccessStartTime }

/-- The observed role by which the remote system reports back a role that `Create`
sent: same role, `isTemporary`, `temporaryRange` and start time, no custom role id. -/
def reportedBack (r : CreateProjectGroupRequestRoles) : MembershipRole :=
  { Role := r.Role
    CustomRoleId := ""
    CustomRoleSlug := ""
    IsTemporary := r.IsTemporary
    TemporaryRange := r.TemporaryRange
    TemporaryAccessStartTime := r.TemporaryAccessStartTime }

/-! ## Sample data for concrete evaluations -/

/-- The instant `2024-01-02T15:04:05Z`. -/
def sampleTime : Time := ⟨2024, 1, 2, 15, 4, 5, 0, 0⟩

/-- A clock whose `n`-th reading is `2025-06-01T00:00:00Z` plus `n` seconds (`n < 60`). -/
def sampleClock (n : Nat) : Time := ⟨2025, 6, 1, 0, 0, n % 60, 0, 0⟩

/-- An observed role without custom role id. -/
def observedRole (role : String) (isTemporary : Bool) (range : String) : MembershipRole :=
  { Role := role, CustomRoleId := "", CustomRoleSlug := "", IsTemporary := isTemporary
    TemporaryRange := range, TemporaryAccessStartTime := sampleTime }

/-! ## Auxiliary facts about the smoother -/

theorem foldl_append_singleton {α β : Type} (f : α → β) (l : List α) (init : List β) :
    l.foldl (fun acc a => acc ++ [f a]) init = init ++ l.map f := by
  induction l generalizing init with
  | nil => simp
  | cons a l ih => simp [List.foldl_cons, ih]

/-- The append loop of `Read` is the pointwise image of the observed roles. -/
theorem planRoles_eq_map (format : Time → String) (P : List ProjectGroupRole)
    (O : List MembershipRole) :
    ProjectGroupResource.Read.planRoles format P O =
      O.map (ProjectGroupResource.Read.presentRole format
        (ProjectGroupResource.Read.stateRoleMap P)) := by
  unfold ProjectGroupResource.Read.planRoles
  rw [foldl_append_singleton]
  simp

/-- Field-wise normal form of the loop body of `Read`. -/
theorem presentRole_eq (format : Time → String) (m : RoleMap) (el : MembershipRole) :
    ProjectGroupResource.Read.presentRole format m el =
      { RoleSlug := .StringValue (resolvedRoleSlug el)
        IsTemporary :=
          match m (resolvedRoleSlug el) with
          | some prev =>
            if prev.IsTemporary.IsNull && !el.IsTemporary then .BoolNull
            else .BoolValue el.IsTemporary
          | none => .BoolValue el.IsTemporary
        TemporaryRange :=
          if !el.IsTemporary then .StringNull
          else
            match m (resolvedRoleSlug el) with
            | some prev =>
              if prev.IsTemporary.ValueBool && (prev.TemporaryRange.IsNull
                  && el.TemporaryRange == TEMPORARY_RANGE_DEFAULT) then .StringNull
              else .StringValue el.TemporaryRange
            | none => .StringValue el.TemporaryRange
        TemporaryAccessStartTime :=
          if !el.IsTemporary then .StringNull
          else .StringValue (format el.TemporaryAccessStartTime) } := by
  unfold ProjectGroupResource.Read.presentRole resolvedRoleSlug
  by_cases hc : el.CustomRoleId = ""
  · simp only [hc, ne_eq, not_false_eq_true, not_true_eq_false, if_true, if_false, types_String.ValueString]
    cases hm : m el.Role with
    | none => cases hT : el.IsTemporary <;> simp [hm]
    | some prev =>
      cases hT : el.IsTemporary <;> cases hN : prev.IsTemporary.IsNull <;>
        cases hV : prev.IsTemporary.ValueBool <;> cases hR : prev.TemporaryRange.IsNull <;>
        by_cases hD : el.TemporaryRange = TEMPORARY_RANGE_DEFAULT <;> simp [hD, hm, hN, hV, hR]
  · simp only [hc, ne_eq, not_false_eq_true, not_true_eq_false, if_true, if_false, types_String.ValueString]
    cases hm : m el.CustomRoleSlug with
    | none => cases hT : el.IsTemporary <;> simp [hm]
    | some prev =>
      cases hT : el.IsTemporary <;> cases hN : prev.IsTemporary.IsNull <;>
        cases hV : prev.IsTemporary.ValueBool <;> cases hR : prev.TemporaryRange.IsNull <;>
        by_cases hD : el.TemporaryRange = TEMPORARY_RANGE_DEFAULT <;> simp [hD, hm, hN, hV, hR]

theorem presentRole_slug (format : Time → String) (m : RoleMap) (el : MembershipRole) :
    (ProjectGroupResource.Read.presentRole format m el).RoleSlug.ValueString =
      resolvedRoleSlug el := by
  rw [presentRole_eq]; rfl

/-- A lookup in the map built by the loop of lines 265-267 misses exactly when
the start map misses and no role of the list carries the slug. -/
theorem foldl_insert_none (l : List ProjectGroupRole) (m0 : RoleMap) (s : String) :
    (l.foldl (fun m role => RoleMap.insert m role.RoleSlug.ValueString role) m0) s = none ↔
      m0 s = none ∧ ∀ p ∈ l, p.RoleSlug.ValueString ≠ s := by
  induction l generalizing m0 with
  | nil => simp
  | cons a l ih =>
    rw [List.foldl_cons, ih]
    unfold RoleMap.insert
    by_cases h : s = a.RoleSlug.ValueString
    · simp [h]
    · simp [h, Ne.symm h]

/-- A hit in the map built by the loop of lines 265-267 comes from the start map
or is a role of the list carrying the slug. -/
theorem foldl_insert_some (l : List ProjectGroupRole) (m0 : RoleMap) (s : String)
    (v : ProjectGroupRole)
    (h : (l.foldl (fun m role => RoleMap.insert m role.RoleSlug.ValueString role) m0) s
      = some v) :
    m0 s = some v ∨ (v ∈ l ∧ v.RoleSlug.ValueString = s) := by
  induction l generalizing m0 with
  | nil => exact Or.inl h
  | cons a l ih =>
    rw [List.foldl_cons] at h
    rcases ih _ h with h1 | ⟨h1, h2⟩
    · unfold RoleMap.insert at h1
      by_cases hs : s = a.RoleSlug.ValueString
      · simp [hs] at h1
        subst h1
        exact Or.inr ⟨List.mem_cons_self _ _, hs.symm⟩
      · simp [hs] at h1
        exact Or.inl h1
    · exact Or.inr ⟨List.mem_cons_of_mem _ h1, h2⟩

theorem stateRoleMap_none (P : List ProjectGroupRole) (s : String) :
    ProjectGroupResource.Read.stateRoleMap P s = none ↔
      ∀ p ∈ P, p.RoleSlug.ValueString ≠ s := by
  unfold ProjectGroupResource.Read.stateRoleMap
  rw [foldl_insert_none]
  simp [RoleMap.empty]

theorem stateRoleMap_some (P : List ProjectGroupRole) (s : String) (v : ProjectGroupRole)
    (h : ProjectGroupResource.Read.stateRoleMap P s = some v) :
    v ∈ P ∧ v.RoleSlug.ValueString = s := by
  unfold ProjectGroupResource.Read.stateRoleMap at h
  rcases foldl_insert_some _ _ _ _ h with h1 | h1
  · simp [RoleMap.empty] at h1
  · exact h1

theorem planRoles_getElem? (format : Time → String) (P : List ProjectGroupRole)
    (O : List MembershipRole) (i : Nat) (el : MembershipRole) (h : O[i]? = some el) :
    (ProjectGroupResource.Read.planRoles format P O)[i]? =
      some (ProjectGroupResource.Read.presentRole format
        (ProjectGroupResource.Read.stateRoleMap P) el) := by
  rw [planRoles_eq_map, List.getElem?_map, h]
  rfl

/-! ## The observed-state smoother: claims C4 - C7 -/

/-- C4: for an observed temporary grant whose prior record of the same role slug is
also temporary, (a) a prior range that is unset together with an observed range
`"1h"` presents the range as null, and (b) a prior range that is set presents the
observed range. -/
theorem smoother_range_default_suppression (format : Time → String)
    (P : List ProjectGroupRole) (O : List MembershipRole) (i : Nat) (el : MembershipRole)
    (previous : ProjectGroupRole)
    (hel : O[i]? = some el)
    (hprev : ProjectGroupResource.Read.stateRoleMap P (resolvedRoleSlug el) = some previous)
    (hprevTemp : previous.IsTemporary.ValueBool = true)
    (hobs : el.IsTemporary = true) :
    (previous.TemporaryRange = .StringNull → el.TemporaryRange = "1h" →
      ∃ r, (ProjectGroupResource.Read.planRoles format P O)[i]? = some r ∧
        r.TemporaryRange = .StringNull) ∧
    (previous.TemporaryRange ≠ .StringNull →
      ∃ r, (ProjectGroupResource.Read.planRoles format P O)[i]? = some r ∧
        r.TemporaryRange = .StringValue el.TemporaryRange) := by
  rw [planRoles_getElem? format P O i el hel, presentRole_eq]
  constructor
  · intro hnull hrange
    refine ⟨_, rfl, ?_⟩
    simp [hprev, hprevTemp, hobs, hnull, hrange, types_String.IsNull, TEMPORARY_RANGE_DEFAULT]
  · intro hset
    refine ⟨_, rfl, ?_⟩
    have hn : previous.TemporaryRange.IsNull = false := by
      cases h : previous.TemporaryRange <;> simp_all [types_String.IsNull]
    simp [hprev, hobs, hn]

theorem smoother_range_default_suppression_witness :
    (∃ r, (ProjectGroupResource.Read.planRoles formatRFC3339
        [⟨.StringValue "viewer", .BoolValue true, .StringNull, .StringNull⟩]
        [observedRole "viewer" true "1h"])[0]? = some r ∧ r.TemporaryRange = .StringNull) ∧
    (∃ r, (ProjectGroupResource.Read.planRoles formatRFC3339
        [⟨.StringValue "viewer", .BoolValue true, .StringValue "30m", .StringNull⟩]
        [observedRole "viewer" true "1h"])[0]? = some r ∧
      r.TemporaryRange = .StringValue "1h") :=
  ⟨(smoother_range_default_suppression formatRFC3339
      [⟨.StringValue "viewer", .BoolValue true, .StringNull, .StringNull⟩]
      [observedRole "viewer" true "1h"] 0 (observedRole "viewer" true "1h")
      ⟨.StringValue "viewer", .BoolValue true, .StringNull, .StringNull⟩
      rfl (by decide) rfl rfl).1 rfl rfl,
   (smoother_range_default_suppression formatRFC3339
      [⟨.StringValue "viewer", .BoolValue true, .StringValue "30m", .StringNull⟩]
      [observedRole "viewer" true "1h"] 0 (observedRole "viewer" true "1h")
      ⟨.StringValue "viewer", .BoolValue true, .StringValue "30m", .StringNull⟩
      rfl (by decide) rfl rfl).2 (by decide)⟩

/-- C5: whatever the prior role list is, an observed grant that is not temporary is
presented with `temporary_range` and `temporary_access_start_time` null. -/
theorem smoother_clears_temporal_fields (format : Time → String)
    (P : List ProjectGroupRole) (O : List MembershipRole) (i : Nat) (el : MembershipRole)
    (hel : O[i]? = some el) (hobs : el.IsTemporary = false) :
    ∃ r, (ProjectGroupResource.Read.planRoles format P O)[i]? = some r ∧
      r.TemporaryRange = .StringNull ∧ r.TemporaryAccessStartTime = .StringNull := by
  rw [planRoles_getElem? format P O i el hel, presentRole_eq]
  exact ⟨_, rfl, by simp [hobs], by simp [hobs]⟩

theorem smoother_clears_temporal_fields_witness :
    ∃ r, (ProjectGroupResource.Read.planRoles formatRFC3339
        [⟨.StringValue "admin", .BoolValue true, .StringValue "2d",
          .StringValue "2024-01-02T15:04:05Z"⟩]
        [observedRole "viewer" true "1h", observedRole "admin" false "2d"])[1]? = some r ∧
      r.TemporaryRange = .StringNull ∧ r.TemporaryAccessStartTime = .StringNull :=
  smoother_clears_temporal_fields formatRFC3339
    [⟨.StringValue "admin", .BoolValue true, .StringValue "2d",
      .StringValue "2024-01-02T15:04:05Z"⟩]
    [observedRole "viewer" true "1h", observedRole "admin" false "2d"] 1
    (observedRole "admin" false "2d") rfl rfl

/-- C6, as stated, fails: with a prior record of the same slug whose `is_temporary`
is null, the observed grant `isTemporary = false, temporaryRange = "1h"` is presented
with `is_temporary` null, not `false`. -/
theorem smoother_forced_clear_counterexample :
    ProjectGroupResource.Read.planRoles formatRFC3339
        [⟨.StringValue "admin", .BoolNull, .StringNull, .StringNull⟩]
        [observedRole "admin" false "1h"] =
      [⟨.StringValue "admin", .BoolNull, .StringNull, .StringNull⟩] ∧
    ProjectGroupResource.Read.planRoles formatRFC3339
        [⟨.StringValue "admin", .BoolNull, .StringNull, .StringNull⟩]
        [observedRole "admin" false "1h"] ≠
      [⟨.StringValue "admin", .BoolValue false, .StringNull, .StringNull⟩] := by
  constructor <;> decide

/-- C6, amended: an observed grant that is not temporary (whatever its range, in
particular `"1h"`) is presented with the resolved role slug, `temporary_range` and
`temporary_access_start_time` null, and `is_temporary` equal to `false`, except that
`is_temporary` is null when the prior list has a record of the same slug whose
`is_temporary` is null. -/
theorem smoother_forced_clear (format : Time → String)
    (P : List ProjectGroupRole) (O : List MembershipRole) (i : Nat) (el : MembershipRole)
    (hel : O[i]? = some el) (hobs : el.IsTemporary = false) :
    (ProjectGroupResource.Read.planRoles format P O)[i]? =
      some { RoleSlug := .StringValue (resolvedRoleSlug el)
             IsTemporary :=
               match ProjectGroupResource.Read.stateRoleMap P (resolvedRoleSlug el) with
               | some previous =>
                 if previous.IsTemporary = .BoolNull then .BoolNull else .BoolValue false
               | none => .BoolValue false
             TemporaryRange := .StringNull
             TemporaryAccessStartTime := .StringNull } := by
  rw [planRoles_getElem? format P O i el hel, presentRole_eq]
  cases hm : ProjectGroupResource.Read.stateRoleMap P (resolvedRoleSlug el) with
  | none => simp [hobs]
  | some previous =>
    cases hp : previous.IsTemporary <;> simp [hobs, hp, types_Bool.IsNull]

theorem smoother_forced_clear_witness :
    (ProjectGroupResource.Read.planRoles formatRFC3339
        [⟨.StringValue "admin", .BoolValue true, .StringValue "1h", .StringNull⟩]
        [observedRole "admin" false "1h"])[0]? =
      some ⟨.StringValue "admin", .BoolValue false, .StringNull, .StringNull⟩ :=
  smoother_forced_clear formatRFC3339
    [⟨.StringValue "admin", .BoolValue true, .StringValue "1h", .StringNull⟩]
    [observedRole "admin" false "1h"] 0 (observedRole "admin" false "1h") rfl rfl

/-- C7: the presented `is_temporary` is null if a prior record with the same role
slug exists, that record has `is_temporary` null and the observed `isTemporary` is
false; in every other case it is the observed boolean. -/
theorem smoother_flag_default_suppression (format : Time → String)
    (P : List ProjectGroupRole) (O : List MembershipRole) (i : Nat) (el : MembershipRole)
    (hel : O[i]? = some el) :
    (((∃ previous, ProjectGroupResource.Read.stateRoleMap P (resolvedRoleSlug el)
          = some previous ∧ previous.IsTemporary = .BoolNull) ∧ el.IsTemporary = false) →
      ∃ r, (ProjectGroupResource.Read.planRoles format P O)[i]? = some r ∧
        r.IsTemporary = .BoolNull) ∧
    (¬ ((∃ previous, ProjectGroupResource.Read.stateRoleMap P (resolvedRoleSlug el)
          = some previous ∧ previous.IsTemporary = .BoolNull) ∧ el.IsTemporary = false) →
      ∃ r, (ProjectGroupResource.Read.planRoles format P O)[i]? = some r ∧
        r.IsTemporary = .BoolValue el.IsTemporary) := by
  rw [planRoles_getElem? format P O i el hel, presentRole_eq]
  constructor
  · rintro ⟨⟨previous, hprev, hnull⟩, hobs⟩
    exact ⟨_, rfl, by simp [hprev, hnull, hobs, types_Bool.IsNull]⟩
  · intro hno
    refine ⟨_, rfl, ?_⟩
    cases hm : ProjectGroupResource.Read.stateRoleMap P (resolvedRoleSlug el) with
    | none => simp
    | some previous =>
      cases hp : previous.IsTemporary <;> cases hT : el.IsTemporary <;>
        simp_all [types_Bool.IsNull]

theorem smoother_flag_default_suppression_witness :
    (∃ r, (ProjectGroupResource.Read.planRoles formatRFC3339
        [⟨.StringValue "admin", .BoolNull, .StringNull, .StringNull⟩]
        [observedRole "admin" false ""])[0]? = some r ∧ r.IsTemporary = .BoolNull) ∧
    (∃ r, (ProjectGroupResource.Read.planRoles formatRFC3339
        [⟨.StringValue "admin", .BoolValue false, .StringNull, .StringNull⟩]
        [observedRole "admin" false ""])[0]? = some r ∧
      r.IsTemporary = .BoolValue false) :=
  ⟨(smoother_flag_default_suppression formatRFC3339
      [⟨.StringValue "admin", .BoolNull, .StringNull, .StringNull⟩]
      [observedRole "admin" false ""] 0 (observedRole "admin" false "") rfl).1
      ⟨⟨⟨.StringValue "admin", .BoolNull, .StringNull, .StringNull⟩, by decide, rfl⟩, rfl⟩,
   (smoother_flag_default_suppression formatRFC3339
      [⟨.StringValue "admin", .BoolValue false, .StringNull, .StringNull⟩]
      [observedRole "admin" false ""] 0 (observedRole "admin" false "") rfl).2
      (by
        rintro ⟨⟨previous, hprev, hnull⟩, _⟩
        have h := stateRoleMap_some _ _ _ hprev
        simp at h
        rw [h.1] at hnull
        exact absurd hnull (by decide))⟩

/-- The list built by the loop of `Read` has the length and order of the observed list, its
`i`-th `role_slug` is the custom role slug when the custom role id is non-empty and
the role otherwise, a slug carried only by a prior grant is carried by no presented
grant, and an observed grant without a prior record of the same slug is presented
with the observed values, its range and start time being null when it is not
temporary. -/
theorem planRoles_is_observed_set (format : Time → String)
    (P : List ProjectGroupRole) (O : List MembershipRole) :
    (ProjectGroupResource.Read.planRoles format P O).length = O.length ∧
    (∀ (i : Nat) (el : MembershipRole), O[i]? = some el →
      ∃ r, (ProjectGroupResource.Read.planRoles format P O)[i]? = some r ∧
        r.RoleSlug =
          .StringValue (if el.CustomRoleId ≠ "" then el.CustomRoleSlug else el.Role)) ∧
    (∀ p ∈ P, (∀ el ∈ O, resolvedRoleSlug el ≠ p.RoleSlug.ValueString) →
      ∀ r ∈ ProjectGroupResource.Read.planRoles format P O,
        r.RoleSlug.ValueString ≠ p.RoleSlug.ValueString) ∧
    (∀ (i : Nat) (el : MembershipRole), O[i]? = some el →
        (∀ p ∈ P, p.RoleSlug.ValueString ≠ resolvedRoleSlug el) →
      (ProjectGroupResource.Read.planRoles format P O)[i]? =
        some { RoleSlug := .StringValue (resolvedRoleSlug el)
               IsTemporary := .BoolValue el.IsTemporary
               TemporaryRange :=
                 if el.IsTemporary then .StringValue el.TemporaryRange else .StringNull
               TemporaryAccessStartTime :=
                 if el.IsTemporary then .StringValue (format el.TemporaryAccessStartTime)
                 else .StringNull }) := by
  refine ⟨?_, ?_, ?_, ?_⟩
  · rw [planRoles_eq_map, List.length_map]
  · intro i el hel
    rw [planRoles_getElem? format P O i el hel, presentRole_eq]
    exact ⟨_, rfl, rfl⟩
  · intro p _ hp r hr
    rw [planRoles_eq_map, List.mem_map] at hr
    obtain ⟨el, hel, rfl⟩ := hr
    rw [presentRole_slug]
    exact hp el hel
  · intro i el hel hno
    rw [planRoles_getElem? format P O i el hel, presentRole_eq,
      (stateRoleMap_none P (resolvedRoleSlug el)).2 hno]
    cases hT : el.IsTemporary <;> simp

/-! ## What `Read` stores (claim C8) -/

/-- The framework finds no duplicate set element exactly in a list without
repetition. -/
theorem duplicateSetElementDiagnostics_eq_nil (describe : ProjectGroupRole → String)
    (roles : List ProjectGroupRole) :
    duplicateSetElementDiagnostics describe roles = [] ↔ roles.Nodup := by
  induction roles with
  | nil => simp [duplicateSetElementDiagnostics]
  | cons a rest ih =>
    simp only [duplicateSetElementDiagnostics, List.append_eq_nil, List.map_eq_nil_iff,
      List.nodup_cons, ih]
    constructor
    · rintro ⟨hfilter, hrest⟩
      refine ⟨?_, hrest⟩
      intro hmem
      have : a ∈ rest.filter (fun other => decide (other = a)) :=
        List.mem_filter.2 ⟨hmem, by simp⟩
      rw [hfilter] at this
      exact absurd this (List.not_mem_nil _)
    · rintro ⟨hnot, hrest⟩
      refine ⟨?_, hrest⟩
      apply List.filter_eq_nil_iff.2
      intro x hx hxa
      have : x = a := by simpa using hxa
      exact hnot (this ▸ hx)

/-- Every diagnostic of the duplicate check has the summary `Duplicate Set Element`. -/
theorem duplicateSetElementDiagnostics_summary (describe : ProjectGroupRole → String)
    (roles : List ProjectGroupRole) :
    ∀ d ∈ duplicateSetElementDiagnostics describe roles,
      d.summary = "Duplicate Set Element" := by
  induction roles with
  | nil => simp [duplicateSetElementDiagnostics]
  | cons a rest ih =>
    intro d hd
    simp only [duplicateSetElementDiagnostics, List.mem_append, List.mem_map] at hd
    rcases hd with ⟨x, _, rfl⟩ | hd
    · rfl
    · exact ih d hd

/-- Observed roles with pairwise distinct resolved slugs are presented as pairwise
distinct roles. -/
theorem planRoles_nodup_of_slugs (format : Time → String) (P : List ProjectGroupRole)
    (O : List MembershipRole) (hO : (O.map resolvedRoleSlug).Nodup) :
    (ProjectGroupResource.Read.planRoles format P O).Nodup := by
  have hmap : (ProjectGroupResource.Read.planRoles format P O).map
      (fun r => r.RoleSlug.ValueString) = O.map resolvedRoleSlug := by
    rw [planRoles_eq_map, List.map_map]
    apply List.map_congr_left
    intro el _
    exact presentRole_slug format _ el
  rw [← hmap] at hO
  exact List.Nodup.of_map _ hO

/-- C8, as stated, fails: when the remote system reports the permanent role `admin`
twice, the two presented roles are equal, the framework refuses them as a set:
`Read` adds the diagnostic `Duplicate Set Element` and writes no state, so it stores
no list of the length of the observed list. -/
theorem read_stores_observed_set_counterexample :
    (ProjectGroupResource.Read
        (fetchingClient [observedRole "admin" false "", observedRole "admin" false ""])
        formatRFC3339 describeRole
        (.ok (sampleModel "devs"
          [⟨.StringValue "admin", .BoolValue false, .StringNull, .StringNull⟩]))).State =
      .Unchanged ∧
    (ProjectGroupResource.Read
        (fetchingClient [observedRole "admin" false "", observedRole "admin" false ""])
        formatRFC3339 describeRole
        (.ok (sampleModel "devs"
          [⟨.StringValue "admin", .BoolValue false, .StringNull,
            .StringNull⟩]))).Diagnostics.map (fun d => d.summary) =
      ["Duplicate Set Element"] ∧
    ProjectGroupResource.Read.planRoles formatRFC3339
        [⟨.StringValue "admin", .BoolValue false, .StringNull, .StringNull⟩]
        [observedRole "admin" false "", observedRole "admin" false ""] =
      [⟨.StringValue "admin", .BoolValue false, .StringNull, .StringNull⟩,
       ⟨.StringValue "admin", .BoolValue false, .StringNull, .StringNull⟩] := by
  refine ⟨by decide, by decide, by decide⟩

/-- C8, amended: under machine identity authentication and a successful fetch,
(1) when the presented roles are pairwise distinct, `Read` adds no diagnostic and
sets the state to the recorded state with `roles` replaced by the list its loop
built, which has the length and order of the observed list, whose `i`-th `role_slug` is the custom role
slug when the custom role id is non-empty and the role otherwise, in which no grant
carries a slug that only a prior grant carries, and in which an observed grant
without prior record of the same slug has the observed values, its range and start
time being null when it is not temporary; (2) when two presented roles are equal,
`Read` writes no state and adds only `Duplicate Set Element` diagnostics, at least
one; (3) the presented roles are pairwise distinct whenever the resolved role slugs
of the observed grants are. -/
theorem read_stores_observed_set (client : Client) (format : Time → String)
    (describe : ProjectGroupRole → String) (state : ProjectGroupResourceModel)
    (resp : GetProjectGroupMembershipResponse)
    (hauth : client.IsMachineIdentityAuth = true)
    (hfetch : client.GetProjectGroupMembership
        { ProjectSlug := state.ProjectSlug.ValueString
          GroupSlug := state.GroupSlug.ValueString } = .ok resp) :
    ((ProjectGroupResource.Read.planRoles format state.Roles resp.Membership.Roles).Nodup →
      (ProjectGroupResource.Read client format describe (.ok state)).Diagnostics = [] ∧
      ∃ stored,
        (ProjectGroupResource.Read client format describe (.ok state)).State =
          .Set { ProjectID := state.ProjectID
                 ProjectSlug := state.ProjectSlug
                 GroupSlug := state.GroupSlug
                 Roles := stored
                 MembershipID := state.MembershipID } ∧
        stored =
          ProjectGroupResource.Read.planRoles format state.Roles resp.Membership.Roles ∧
        stored.length = resp.Membership.Roles.length ∧
        (∀ (i : Nat) (el : MembershipRole), resp.Membership.Roles[i]? = some el →
          ∃ r, stored[i]? = some r ∧
            r.RoleSlug =
              .StringValue (if el.CustomRoleId ≠ "" then el.CustomRoleSlug else el.Role)) ∧
        (∀ p ∈ state.Roles,
          (∀ el ∈ resp.Membership.Roles, resolvedRoleSlug el ≠ p.RoleSlug.ValueString) →
          ∀ r ∈ stored, r.RoleSlug.ValueString ≠ p.RoleSlug.ValueString) ∧
        (∀ (i : Nat) (el : MembershipRole), resp.Membership.Roles[i]? = some el →
          (∀ p ∈ state.Roles, p.RoleSlug.ValueString ≠ resolvedRoleSlug el) →
          stored[i]? =
            some { RoleSlug := .StringValue (resolvedRoleSlug el)
                   IsTemporary := .BoolValue el.IsTemporary
                   TemporaryRange :=
                     if el.IsTemporary then .StringValue el.TemporaryRange else .StringNull
                   TemporaryAccessStartTime :=
                     if el.IsTemporary then
                       .StringValue (format el.TemporaryAccessStartTime)
                     else .StringNull })) ∧
    (¬ (ProjectGroupResource.Read.planRoles format state.Roles
          resp.Membership.Roles).Nodup →
      (ProjectGroupResource.Read client format describe (.ok state)).State = .Unchanged ∧
      (ProjectGroupResource.Read client format describe (.ok state)).Diagnostics ≠ [] ∧
      ∀ d ∈ (ProjectGroupResource.Read client format describe (.ok state)).Diagnostics,
        d.summary = "Duplicate Set Element") ∧
    ((resp.Membership.Roles.map resolvedRoleSlug).Nodup →
      (ProjectGroupResource.Read.planRoles format state.Roles
        resp.Membership.Roles).Nodup) := by
  refine ⟨?_, ?_, planRoles_nodup_of_slugs format state.Roles resp.Membership.Roles⟩
  · intro hnodup
    have hdup := (duplicateSetElementDiagnostics_eq_nil describe _).2 hnodup
    refine ⟨by simp [ProjectGroupResource.Read, hauth, hfetch, hdup],
      ProjectGroupResource.Read.planRoles format state.Roles resp.Membership.Roles,
      by simp [ProjectGroupResource.Read, hauth, hfetch, hdup], rfl, ?_⟩
    exact planRoles_is_observed_set format state.Roles resp.Membership.Roles
  · intro hdupl
    have hsum := duplicateSetElementDiagnostics_summary describe
      (ProjectGroupResource.Read.planRoles format state.Roles resp.Membership.Roles)
    cases hdup : duplicateSetElementDiagnostics describe
        (ProjectGroupResource.Read.planRoles format state.Roles resp.Membership.Roles) with
    | nil => exact absurd ((duplicateSetElementDiagnostics_eq_nil describe _).1 hdup) hdupl
    | cons d ds =>
      rw [hdup] at hsum
      refine ⟨by simp [ProjectGroupResource.Read, hauth, hfetch, hdup],
        by simp [ProjectGroupResource.Read, hauth, hfetch, hdup], ?_⟩
      intro x hx
      have hx2 : x ∈ d :: ds := by
        simpa [ProjectGroupResource.Read, hauth, hfetch, hdup] using hx
      exact hsum x hx2

theorem read_stores_observed_set_witness :
    ((ProjectGroupResource.Read
        (fetchingClient [⟨"custom", "id-1", "auditor", true, "2d", sampleTime⟩,
                         observedRole "admin" false "1h"])
        formatRFC3339 describeRole
        (.ok (sampleModel "devs"
          [⟨.StringValue "admin", .BoolNull, .StringNull, .StringNull⟩]))).Diagnostics = [] ∧
      ∃ stored,
        (ProjectGroupResource.Read
          (fetchingClient [⟨"custom", "id-1", "auditor", true, "2d", sampleTime⟩,
                           observedRole "admin" false "1h"])
          formatRFC3339 describeRole
          (.ok (sampleModel "devs"
            [⟨.StringValue "admin", .BoolNull, .StringNull, .StringNull⟩]))).State =
          .Set { ProjectID := .StringValue "p-1"
                 ProjectSlug := .StringValue "proj"
                 GroupSlug := .StringValue "devs"
                 Roles := stored
                 MembershipID := .StringValue "m-1" } ∧
        stored.length = 2) ∧
    ((ProjectGroupResource.Read
        (fetchingClient [observedRole "admin" false "", observedRole "admin" false "1h"])
        formatRFC3339 describeRole
        (.ok (sampleModel "devs" []))).State = .Unchanged ∧
      (ProjectGroupResource.Read
        (fetchingClient [observedRole "admin" false "", observedRole "admin" false "1h"])
        formatRFC3339 describeRole
        (.ok (sampleModel "devs" []))).Diagnostics ≠ []) :=
  ⟨(fun h => ⟨h.1, h.2.choose, h.2.choose_spec.1, h.2.choose_spec.2.2.1⟩)
      ((read_stores_observed_set
        (fetchingClient [⟨"custom", "id-1", "auditor", true, "2d", sampleTime⟩,
                         observedRole "admin" false "1h"])
        formatRFC3339 describeRole
        (sampleModel "devs" [⟨.StringValue "admin", .BoolNull, .StringNull, .StringNull⟩])
        ⟨⟨[⟨"custom", "id-1", "auditor", true, "2d", sampleTime⟩,
           observedRole "admin" false "1h"]⟩⟩ rfl rfl).1 (by decide)),
   (fun h => ⟨h.1, h.2.1⟩)
      ((read_stores_observed_set
        (fetchingClient [observedRole "admin" false "", observedRole "admin" false "1h"])
        formatRFC3339 describeRole (sampleModel "devs" [])
        ⟨⟨[observedRole "admin" false "", observedRole "admin" false "1h"]⟩⟩
        rfl rfl).2.1 (by decide))⟩

/-! ## The observed-state smoother: fixed point (claim C2) -/

/-- The loop body of `Read` gives the same result against a second map whose
record for the slug is the presentation of an observed role that agrees with `el`
on `isTemporary` and `temporaryRange`. -/
theorem presentRole_stable (format : Time → String) (m1 m2 : RoleMap)
    (el other : MembershipRole)
    (hs : resolvedRoleSlug other = resolvedRoleSlug el)
    (hT : other.IsTemporary = el.IsTemporary)
    (hR : other.TemporaryRange = el.TemporaryRange)
    (hm2 : m2 (resolvedRoleSlug el) =
      some (ProjectGroupResource.Read.presentRole format m1 other)) :
    ProjectGroupResource.Read.presentRole format m2 el =
      ProjectGroupResource.Read.presentRole format m1 el := by
  rw [presentRole_eq format m2 el, hm2, presentRole_eq format m1 el,
    presentRole_eq format m1 other]
  simp only [hs, hT, hR]
  cases hm1 : m1 (resolvedRoleSlug el) with
  | none =>
    cases hTe : el.IsTemporary <;>
      by_cases hD : el.TemporaryRange = TEMPORARY_RANGE_DEFAULT <;>
      simp [hD, hTe, types_Bool.IsNull, types_Bool.ValueBool, types_String.IsNull]
  | some prev =>
    obtain ⟨slug, flag, range, start⟩ := prev
    cases hTe : el.IsTemporary <;> rcases flag with _ | _ | _ | _ <;>
      rcases range with _ | _ | _ <;>
      by_cases hD : el.TemporaryRange = TEMPORARY_RANGE_DEFAULT <;>
      simp [hD, hTe, types_Bool.IsNull, types_Bool.ValueBool, types_String.IsNull]

/-- C2, as stated, fails: when the observed list carries the slug `admin` twice
(a temporary grant of range `"1h"`, then a permanent grant), the second pass matches
the first observed grant against the presentation of the second one and no longer
suppresses the default range. -/
theorem smoother_idempotent_counterexample :
    ProjectGroupResource.Read.planRoles formatRFC3339
        (ProjectGroupResource.Read.planRoles formatRFC3339
          [⟨.StringValue "admin", .BoolValue true, .StringNull, .StringNull⟩]
          [observedRole "admin" true "1h", observedRole "admin" false ""])
        [observedRole "admin" true "1h", observedRole "admin" false ""] ≠
      ProjectGroupResource.Read.planRoles formatRFC3339
        [⟨.StringValue "admin", .BoolValue true, .StringNull, .StringNull⟩]
        [observedRole "admin" true "1h", observedRole "admin" false ""] := by
  decide

/-- One observed role is presented alike against the prior list and against the
result of the first pass, when every observed role of the same resolved slug agrees
with it on `isTemporary` and `temporaryRange`. -/
theorem presentRole_second_pass (format : Time → String)
    (P : List ProjectGroupRole) (O : List MembershipRole) (el : MembershipRole)
    (hel : el ∈ O)
    (hO : ∀ other ∈ O, resolvedRoleSlug other = resolvedRoleSlug el →
      other.IsTemporary = el.IsTemporary ∧ other.TemporaryRange = el.TemporaryRange) :
    ProjectGroupResource.Read.presentRole format
        (ProjectGroupResource.Read.stateRoleMap
          (O.map (ProjectGroupResource.Read.presentRole format
            (ProjectGroupResource.Read.stateRoleMap P)))) el =
      ProjectGroupResource.Read.presentRole format
        (ProjectGroupResource.Read.stateRoleMap P) el := by
  cases hm2 : ProjectGroupResource.Read.stateRoleMap
      (O.map (ProjectGroupResource.Read.presentRole format
        (ProjectGroupResource.Read.stateRoleMap P))) (resolvedRoleSlug el) with
  | none =>
    have h := (stateRoleMap_none _ _).1 hm2 _ (List.mem_map_of_mem _ hel)
    exact absurd (presentRole_slug format _ el) h
  | some v =>
    obtain ⟨hv, hslug⟩ := stateRoleMap_some _ _ _ hm2
    obtain ⟨other, hother, rfl⟩ := List.mem_map.1 hv
    rw [presentRole_slug] at hslug
    obtain ⟨hT, hR⟩ := hO other hother hslug
    exact presentRole_stable format _ _ el other hslug hT hR hm2

/-- C2, amended: for every prior role list `P` and every observed role list `O` in
which any two grants with the same resolved role slug agree on `isTemporary` and
`temporaryRange` (in particular every `O` whose resolved role slugs are pairwise
distinct), smoothing `O` against the result of smoothing `O` against `P` gives the
result of smoothing `O` against `P`. -/
theorem smoother_idempotent (format : Time → String)
    (P : List ProjectGroupRole) (O : List MembershipRole)
    (hO : ∀ a ∈ O, ∀ b ∈ O, resolvedRoleSlug a = resolvedRoleSlug b →
      a.IsTemporary = b.IsTemporary ∧ a.TemporaryRange = b.TemporaryRange) :
    ProjectGroupResource.Read.planRoles format
        (ProjectGroupResource.Read.planRoles format P O) O =
      ProjectGroupResource.Read.planRoles format P O := by
  rw [planRoles_eq_map format P O, planRoles_eq_map format _ O]
  apply List.map_congr_left
  intro el hel
  exact presentRole_second_pass format P O el hel (fun other hother hs => hO other hother el hel hs)

theorem smoother_idempotent_witness :
    ProjectGroupResource.Read.planRoles formatRFC3339
        (ProjectGroupResource.Read.planRoles formatRFC3339
          [⟨.StringValue "viewer", .BoolValue true, .StringNull, .StringNull⟩,
           ⟨.StringValue "admin", .BoolNull, .StringNull, .StringNull⟩]
          [observedRole "admin" false "", observedRole "viewer" true "1h"])
        [observedRole "admin" false "", observedRole "viewer" true "1h"] =
      ProjectGroupResource.Read.planRoles formatRFC3339
        [⟨.StringValue "viewer", .BoolValue true, .StringNull, .StringNull⟩,
         ⟨.StringValue "admin", .BoolNull, .StringNull, .StringNull⟩]
        [observedRole "admin" false "", observedRole "viewer" true "1h"] :=
  smoother_idempotent formatRFC3339
    [⟨.StringValue "viewer", .BoolValue true, .StringNull, .StringNull⟩,
     ⟨.StringValue "admin", .BoolNull, .StringNull, .StringNull⟩]
    [observedRole "admin" false "", observedRole "viewer" true "1h"] (by decide)

/-! ## Auxiliary facts about the role set builder -/

theorem create_rolesLoop_cons (parse : String → Option Time) (clock : Nat → Time)
    (el : ProjectGroupRole) (rest : List ProjectGroupRole) (tick : Nat)
    (acc : List CreateProjectGroupRequestRoles) (h : Bool) :
    ProjectGroupResource.Create.rolesLoop parse clock (el :: rest) tick acc h =
      match startTimeOf parse (clock tick) el with
      | none => .error (parseErrorDiagnostic el)
      | some t =>
        ProjectGroupResource.Create.rolesLoop parse clock rest (tick + 1)
          (acc ++ [createRoleOf el t]) (!el.IsTemporary.ValueBool || h) := by
  rw [ProjectGroupResource.Create.rolesLoop]
  unfold startTimeOf createRoleOf
  cases hT : el.IsTemporary.ValueBool <;> simp

/-- A successful run of the loop of `Create`: the flag, and the roles appended. -/
theorem create_rolesLoop_ok (parse : String → Option Time) (clock : Nat → Time) :
    ∀ (ps : List ProjectGroupRole) (tick : Nat) (acc : List CreateProjectGroupRequestRoles)
      (h : Bool) (out : List CreateProjectGroupRequestRoles) (h2 : Bool),
      ProjectGroupResource.Create.rolesLoop parse clock ps tick acc h = .ok (out, h2) →
      h2 = (h || ps.any (fun el => !el.IsTemporary.ValueBool)) ∧
      ∃ rs, out = acc ++ rs ∧ rs.length = ps.length ∧
        ∀ (j : Nat) (el : ProjectGroupRole), ps[j]? = some el →
          ∃ t, startTimeOf parse (clock (tick + j)) el = some t ∧
            rs[j]? = some (createRoleOf el t) := by
  intro ps
  induction ps with
  | nil =>
    intro tick acc h out h2 hrun
    simp [ProjectGroupResource.Create.rolesLoop] at hrun
    obtain ⟨rfl, rfl⟩ := hrun
    exact ⟨by simp, [], by simp, rfl, by simp⟩
  | cons a rest ih =>
    intro tick acc h out h2 hrun
    rw [create_rolesLoop_cons] at hrun
    cases hst : startTimeOf parse (clock tick) a with
    | none => simp [hst] at hrun
    | some t =>
      simp only [hst] at hrun
      obtain ⟨hflag, rs, hout, hlen, hget⟩ := ih _ _ _ _ _ hrun
      refine ⟨?_, createRoleOf a t :: rs, ?_, ?_, ?_⟩
      · rw [hflag, List.any_cons]
        cases h <;> cases a.IsTemporary.ValueBool <;> simp
      · rw [hout]; simp
      · simp [hlen]
      · intro j el hj
        cases j with
        | zero =>
          simp at hj
          subst hj
          exact ⟨t, hst, by simp⟩
        | succ j =>
          simp only [List.getElem?_cons_succ] at hj ⊢
          obtain ⟨t2, ht2, hr⟩ := hget j el hj
          refine ⟨t2, ?_, hr⟩
          rw [← ht2]
          congr 2
          omega

/-- The loop of `Create` returns when every non-empty start time parses. -/
theorem create_rolesLoop_total (parse : String → Option Time) (clock : Nat → Time) :
    ∀ (ps : List ProjectGroupRole) (tick : Nat) (acc : List CreateProjectGroupRequestRoles)
      (h : Bool),
      (∀ el ∈ ps, el.TemporaryAccessStartTime.ValueString ≠ "" →
        (parse el.TemporaryAccessStartTime.ValueString).isSome = true) →
      ∃ out, ProjectGroupResource.Create.rolesLoop parse clock ps tick acc h =
        .ok (out, h || ps.any (fun el => !el.IsTemporary.ValueBool)) := by
  intro ps
  induction ps with
  | nil =>
    intro tick acc h _
    exact ⟨acc, by simp [ProjectGroupResource.Create.rolesLoop]⟩
  | cons a rest ih =>
    intro tick acc h hparse
    rw [create_rolesLoop_cons]
    have hst : ∃ t, startTimeOf parse (clock tick) a = some t := by
      unfold startTimeOf
      by_cases hs : a.TemporaryAccessStartTime.ValueString = ""
      · exact ⟨clock tick, by simp [hs]⟩
      · have := hparse a (List.mem_cons_self _ _) hs
        obtain ⟨t, ht⟩ := Option.isSome_iff_exists.1 this
        exact ⟨t, by simp [hs, ht]⟩
    obtain ⟨t, ht⟩ := hst
    simp only [ht]
    obtain ⟨out, hout⟩ := ih (tick + 1) (acc ++ [createRoleOf a t])
      (!a.IsTemporary.ValueBool || h) (fun el hel => hparse el (List.mem_cons_of_mem _ hel))
    refine ⟨out, ?_⟩
    rw [hout, List.any_cons]
    cases h <;> cases a.IsTemporary.ValueBool <;> simp

/-- The loop of `Update` computes the field-wise copy of what the loop of `Create`
computes. -/
theorem update_rolesLoop_eq (parse : String → Option Time) (clock : Nat → Time) :
    ∀ (ps : List ProjectGroupRole) (tick : Nat) (acc : List CreateProjectGroupRequestRoles)
      (h : Bool),
      ProjectGroupResource.Update.rolesLoop parse clock ps tick (acc.map toUpdateRole) h =
        match ProjectGroupResource.Create.rolesLoop parse clock ps tick acc h with
        | .error d => .error d
        | .ok (out, h2) => .ok (out.map toUpdateRole, h2) := by
  intro ps
  induction ps with
  | nil =>
    intro tick acc h
    simp [ProjectGroupResource.Update.rolesLoop, ProjectGroupResource.Create.rolesLoop]
  | cons a rest ih =>
    intro tick acc h
    rw [create_rolesLoop_cons, ProjectGroupResource.Update.rolesLoop]
    cases hst : startTimeOf parse (clock tick) a with
    | none =>
      unfold startTimeOf at hst
      simp only [hst]
    | some t =>
      have hst2 := hst
      unfold startTimeOf at hst2
      simp only [hst2]
      rw [← ih (tick + 1) (acc ++ [createRoleOf a t]) (!a.IsTemporary.ValueBool || h)]
      simp only [List.map_append, List.map_cons, List.map_nil]
      cases hT : a.IsTemporary.ValueBool <;>
        simp [toUpdateRole, createRoleOf, hT, TEMPORARY_RANGE_DEFAULT]

/-- The builder of `Update` returns the field-wise copy of what the builder of
`Create` returns. -/
theorem update_buildRoles_eq (parse : String → Option Time) (clock : Nat → Time)
    (ps : List ProjectGroupRole) :
    ProjectGroupResource.Update.buildRoles parse clock ps =
      match ProjectGroupResource.Create.buildRoles parse clock ps with
      | .error d => .error d
      | .ok out => .ok (out.map toUpdateRole) := by
  unfold ProjectGroupResource.Update.buildRoles ProjectGroupResource.Create.buildRoles
  have h := update_rolesLoop_eq parse clock ps 0 [] false
  simp only [List.map_nil] at h
  rw [h]
  cases hrun : ProjectGroupResource.Create.rolesLoop parse clock ps 0 [] false with
  | error d => rfl
  | ok res =>
    obtain ⟨out, h2⟩ := res
    cases h2 <;> simp

/-- What the builder of `Create` returns, when it returns a role list. -/
theorem create_buildRoles_ok (parse : String → Option Time) (clock : Nat → Time)
    (ps : List ProjectGroupRole) (out : List CreateProjectGroupRequestRoles)
    (hrun : ProjectGroupResource.Create.buildRoles parse clock ps = .ok out) :
    out.length = ps.length ∧
      ∀ (j : Nat) (el : ProjectGroupRole), ps[j]? = some el →
        ∃ t, startTimeOf parse (clock j) el = some t ∧ out[j]? = some (createRoleOf el t) := by
  unfold ProjectGroupResource.Create.buildRoles at hrun
  cases hloop : ProjectGroupResource.Create.rolesLoop parse clock ps 0 [] false with
  | error d => simp [hloop] at hrun
  | ok res =>
    obtain ⟨rs0, h2⟩ := res
    obtain ⟨_, rs, hout, hlen, hget⟩ := create_rolesLoop_ok parse clock ps 0 [] false rs0 h2 hloop
    simp only [hloop] at hrun
    cases h2 with
    | false => simp at hrun
    | true =>
      simp at hrun
      subst hrun
      simp only [List.nil_append] at hout
      subst hout
      refine ⟨hlen, ?_⟩
      intro j el hj
      have := hget j el hj
      simpa using this

/-- What the builder of `Update` returns, when it returns a role list. -/
theorem update_buildRoles_ok (parse : String → Option Time) (clock : Nat → Time)
    (ps : List ProjectGroupRole) (out : List UpdateProjectGroupRequestRoles)
    (hrun : ProjectGroupResource.Update.buildRoles parse clock ps = .ok out) :
    out.length = ps.length ∧
      ∀ (j : Nat) (el : ProjectGroupRole), ps[j]? = some el →
        ∃ t, startTimeOf parse (clock j) el = some t ∧
          out[j]? = some (toUpdateRole (createRoleOf el t)) := by
  rw [update_buildRoles_eq] at hrun
  cases hc : ProjectGroupResource.Create.buildRoles parse clock ps with
  | error d => simp [hc] at hrun
  | ok outc =>
    simp only [hc] at hrun
    injection hrun with hrun
    subst hrun
    obtain ⟨hlen, hget⟩ := create_buildRoles_ok parse clock ps outc hc
    refine ⟨by simp [hlen], ?_⟩
    intro j el hj
    obtain ⟨t, ht, hr⟩ := hget j el hj
    exact ⟨t, ht, by simp [List.getElem?_map, hr]⟩

/-! ## The role set builder: claims C3, C9, C10 -/

/-- C3, as stated, fails: a list with a permanent grant whose start time does not
parse is rejected, and a list without permanent grant whose start time does not
parse is rejected with the parse diagnostic, not the permanent-role diagnostic. -/
theorem role_set_builder_acceptance_counterexample :
    ProjectGroupResource.Create.buildRoles parseRFC3339 sampleClock
        [⟨.StringValue "admin", .BoolValue false, .StringNull, .StringValue "tomorrow"⟩] =
      .error ⟨"Error parsing field TemporaryAccessStartTime",
        "Must provider valid ISO timestamp for field TemporaryAccessStartTime tomorrow, role admin"⟩ ∧
    ProjectGroupResource.Create.buildRoles parseRFC3339 sampleClock
        [⟨.StringValue "viewer", .BoolValue true, .StringNull, .StringValue "tomorrow"⟩] =
      .error ⟨"Error parsing field TemporaryAccessStartTime",
        "Must provider valid ISO timestamp for field TemporaryAccessStartTime tomorrow, role viewer"⟩ ∧
    (⟨"Error parsing field TemporaryAccessStartTime",
        "Must provider valid ISO timestamp for field TemporaryAccessStartTime tomorrow, role viewer"⟩
      : Diagnostic) ≠ permanentRoleDiagnostic := by
  refine ⟨by rfl, by rfl, by decide⟩

/-- C3, amended: for every desired grant list in which every non-empty start time
parses, the role-building loops of `Create` and of `Update` return a role list if
some grant has `isTemporary` false (or unset), and fail with the diagnostic
`Must have atleast one permanent role` if no grant has (the empty list included). -/
theorem role_set_builder_acceptance (parse : String → Option Time) (clock : Nat → Time)
    (ps : List ProjectGroupRole)
    (hparse : ∀ el ∈ ps, el.TemporaryAccessStartTime.ValueString ≠ "" →
      (parse el.TemporaryAccessStartTime.ValueString).isSome = true) :
    ((∃ el ∈ ps, el.IsTemporary.ValueBool = false) →
      (∃ roles, ProjectGroupResource.Create.buildRoles parse clock ps = .ok roles) ∧
      (∃ roles, ProjectGroupResource.Update.buildRoles parse clock ps = .ok roles)) ∧
    ((∀ el ∈ ps, el.IsTemporary.ValueBool = true) →
      ProjectGroupResource.Create.buildRoles parse clock ps = .error permanentRoleDiagnostic ∧
      ProjectGroupResource.Update.buildRoles parse clock ps =
        .error permanentRoleDiagnostic) := by
  obtain ⟨out, hout⟩ := create_rolesLoop_total parse clock ps 0 [] false hparse
  constructor
  · rintro ⟨el, hel, hperm⟩
    have hany : ps.any (fun el => !el.IsTemporary.ValueBool) = true :=
      List.any_eq_true.2 ⟨el, hel, by simp [hperm]⟩
    have hc : ProjectGroupResource.Create.buildRoles parse clock ps = .ok out := by
      unfold ProjectGroupResource.Create.buildRoles
      rw [hout]
      simp [hany]
    exact ⟨⟨out, hc⟩, ⟨out.map toUpdateRole, by rw [update_buildRoles_eq, hc]⟩⟩
  · intro hall
    have hany : ps.any (fun el => !el.IsTemporary.ValueBool) = false := by
      rw [List.any_eq_false]
      intro el hel
      simp [hall el hel]
    have hc : ProjectGroupResource.Create.buildRoles parse clock ps =
        .error permanentRoleDiagnostic := by
      unfold ProjectGroupResource.Create.buildRoles
      rw [hout]
      simp [hany]
    exact ⟨hc, by rw [update_buildRoles_eq, hc]⟩

theorem role_set_builder_acceptance_witness :
    ((∃ roles, ProjectGroupResource.Create.buildRoles parseRFC3339 sampleClock
        [⟨.StringValue "viewer", .BoolValue true, .StringValue "2d",
            .StringValue "2024-01-02T15:04:05Z"⟩,
         ⟨.StringValue "admin", .BoolNull, .StringNull, .StringNull⟩] = .ok roles) ∧
      (∃ roles, ProjectGroupResource.Update.buildRoles parseRFC3339 sampleClock
        [⟨.StringValue "viewer", .BoolValue true, .StringValue "2d",
            .StringValue "2024-01-02T15:04:05Z"⟩,
         ⟨.StringValue "admin", .BoolNull, .StringNull, .StringNull⟩] = .ok roles)) ∧
    (ProjectGroupResource.Create.buildRoles parseRFC3339 sampleClock
        [⟨.StringValue "viewer", .BoolValue true, .StringNull, .StringNull⟩] =
        .error permanentRoleDiagnostic ∧
      ProjectGroupResource.Update.buildRoles parseRFC3339 sampleClock
        [⟨.StringValue "viewer", .BoolValue true, .StringNull, .StringNull⟩] =
        .error permanentRoleDiagnostic) :=
  ⟨(role_set_builder_acceptance parseRFC3339 sampleClock
      [⟨.StringValue "viewer", .BoolValue true, .StringValue "2d",
          .StringValue "2024-01-02T15:04:05Z"⟩,
       ⟨.StringValue "admin", .BoolNull, .StringNull, .StringNull⟩] (by decide)).1
      ⟨⟨.StringValue "admin", .BoolNull, .StringNull, .StringNull⟩, by decide, rfl⟩,
   (role_set_builder_acceptance parseRFC3339 sampleClock
      [⟨.StringValue "viewer", .BoolValue true, .StringNull, .StringNull⟩] (by decide)).2
      (by decide)⟩

/-- C9: in a list the builder accepts, a grant with `isTemporary` true gets
`TemporaryMode = "relative"` and a `TemporaryRange` equal to the input range when
that is non-empty and to `"1h"` otherwise, in `Create` and in `Update`; the roles
`admin` (permanent) and `viewer` (temporary, empty range and start time) yield a
request in which `viewer` has range `"1h"` and mode `"relative"`. -/
theorem normalize_temporary_grant (parse : String → Option Time) (clock : Nat → Time) :
    (∀ (ps : List ProjectGroupRole) (i : Nat) (el : ProjectGroupRole)
        (out : List CreateProjectGroupRequestRoles),
      ProjectGroupResource.Create.buildRoles parse clock ps = .ok out →
      ps[i]? = some el → el.IsTemporary.ValueBool = true →
      ∃ r, out[i]? = some r ∧ r.TemporaryMode = "relative" ∧
        r.TemporaryRange =
          if el.TemporaryRange.ValueString = "" then "1h"
          else el.TemporaryRange.ValueString) ∧
    (∀ (ps : List ProjectGroupRole) (i : Nat) (el : ProjectGroupRole)
        (out : List UpdateProjectGroupRequestRoles),
      ProjectGroupResource.Update.buildRoles parse clock ps = .ok out →
      ps[i]? = some el → el.IsTemporary.ValueBool = true →
      ∃ r, out[i]? = some r ∧ r.TemporaryMode = "relative" ∧
        r.TemporaryRange =
          if el.TemporaryRange.ValueString = "" then "1h"
          else el.TemporaryRange.ValueString) ∧
    ProjectGroupResource.Create.buildRoles parse clock
        [⟨.StringValue "admin", .BoolValue false, .StringNull, .StringNull⟩,
         ⟨.StringValue "viewer", .BoolValue true, .StringValue "", .StringValue ""⟩] =
      .ok [⟨"admin", false, "", "", clock 0⟩, ⟨"viewer", true, "relative", "1h", clock 1⟩] ∧
    ProjectGroupResource.Update.buildRoles parse clock
        [⟨.StringValue "admin", .BoolValue false, .StringNull, .StringNull⟩,
         ⟨.StringValue "viewer", .BoolValue true, .StringValue "", .StringValue ""⟩] =
      .ok [⟨"admin", false, "", "", clock 0⟩, ⟨"viewer", true, "relative", "1h", clock 1⟩] := by
  refine ⟨?_, ?_, by rfl, by rfl⟩
  · intro ps i el out hrun hel htemp
    obtain ⟨t, _, hr⟩ := (create_buildRoles_ok parse clock ps out hrun).2 i el hel
    refine ⟨_, hr, ?_, ?_⟩
    · simp [createRoleOf, htemp, TEMPORARY_MODE_RELATIVE]
    · simp [createRoleOf, htemp, TEMPORARY_RANGE_DEFAULT]
  · intro ps i el out hrun hel htemp
    obtain ⟨t, _, hr⟩ := (update_buildRoles_ok parse clock ps out hrun).2 i el hel
    refine ⟨_, hr, ?_, ?_⟩
    · simp [toUpdateRole, createRoleOf, htemp, TEMPORARY_MODE_RELATIVE]
    · simp [toUpdateRole, createRoleOf, htemp, TEMPORARY_RANGE_DEFAULT]

theorem normalize_temporary_grant_witness :
    ∃ r, ([⟨"admin", false, "", "", sampleClock 0⟩,
           ⟨"viewer", true, "relative", "1h", sampleClock 1⟩] :
          List CreateProjectGroupRequestRoles)[1]? = some r ∧
      r.TemporaryMode = "relative" ∧
      r.TemporaryRange =
        if (types_String.StringValue "").ValueString = "" then "1h"
        else (types_String.StringValue "").ValueString :=
  (normalize_temporary_grant parseRFC3339 sampleClock).1
    [⟨.StringValue "admin", .BoolValue false, .StringNull, .StringNull⟩,
     ⟨.StringValue "viewer", .BoolValue true, .StringValue "", .StringValue ""⟩] 1
    ⟨.StringValue "viewer", .BoolValue true, .StringValue "", .StringValue ""⟩
    [⟨"admin", false, "", "", sampleClock 0⟩, ⟨"viewer", true, "relative", "1h", sampleClock 1⟩]
    (by rfl) rfl rfl

/-- C10, as stated, fails: for a permanent grant the builder sends the range and
the start time the user wrote; here `TemporaryRange` is `"2h"`, not empty, and
`TemporaryAccessStartTime` is the parsed `2024-01-02T15:04:05Z`, not the clock
reading. -/
theorem normalize_permanent_grant_counterexample :
    ProjectGroupResource.Create.buildRoles parseRFC3339 sampleClock
        [⟨.StringValue "admin", .BoolValue false, .StringValue "2h",
          .StringValue "2024-01-02T15:04:05Z"⟩] =
      .ok [⟨"admin", false, "", "2h", sampleTime⟩] ∧
    ProjectGroupResource.Update.buildRoles parseRFC3339 sampleClock
        [⟨.StringValue "admin", .BoolValue false, .StringValue "2h",
          .StringValue "2024-01-02T15:04:05Z"⟩] =
      .ok [⟨"admin", false, "", "2h", sampleTime⟩] ∧
    "2h" ≠ "" ∧ sampleTime ≠ sampleClock 0 := by
  refine ⟨by rfl, by rfl, by decide, by decide⟩

/-- C10, amended: in a list the builder accepts, the request role built by `Create`
and by `Update` for a grant with `isTemporary` false (or unset) has
`TemporaryMode = ""`, a `TemporaryRange` equal to the range the user wrote (empty
when unset), and a `TemporaryAccessStartTime` that is the clock reading taken for
that grant when the start time the user wrote is empty or unset, and the instant
parsed from it otherwise. -/
theorem normalize_permanent_grant (parse : String → Option Time) (clock : Nat → Time)
    (ps : List ProjectGroupRole) (i : Nat) (el : ProjectGroupRole)
    (hel : ps[i]? = some el) (hperm : el.IsTemporary.ValueBool = false) :
    (∀ out, ProjectGroupResource.Create.buildRoles parse clock ps = .ok out →
      ∃ r, out[i]? = some r ∧ r.TemporaryMode = "" ∧
        r.TemporaryRange = el.TemporaryRange.ValueString ∧
        (el.TemporaryAccessStartTime.ValueString = "" →
          r.TemporaryAccessStartTime = clock i) ∧
        (el.TemporaryAccessStartTime.ValueString ≠ "" →
          parse el.TemporaryAccessStartTime.ValueString =
            some r.TemporaryAccessStartTime)) ∧
    (∀ out, ProjectGroupResource.Update.buildRoles parse clock ps = .ok out →
      ∃ r, out[i]? = some r ∧ r.TemporaryMode = "" ∧
        r.TemporaryRange = el.TemporaryRange.ValueString ∧
        (el.TemporaryAccessStartTime.ValueString = "" →
          r.TemporaryAccessStartTime = clock i) ∧
        (el.TemporaryAccessStartTime.ValueString ≠ "" →
          parse el.TemporaryAccessStartTime.ValueString =
            some r.TemporaryAccessStartTime)) := by
  constructor
  · intro out hrun
    obtain ⟨t, ht, hr⟩ := (create_buildRoles_ok parse clock ps out hrun).2 i el hel
    unfold startTimeOf at ht
    refine ⟨_, hr, by simp [createRoleOf, hperm], by simp [createRoleOf, hperm], ?_, ?_⟩
    · intro he
      simp [he] at ht
      simp [createRoleOf, ht]
    · intro he
      simp [he] at ht
      simp [createRoleOf, ht]
  · intro out hrun
    obtain ⟨t, ht, hr⟩ := (update_buildRoles_ok parse clock ps out hrun).2 i el hel
    unfold startTimeOf at ht
    refine ⟨_, hr, by simp [toUpdateRole, createRoleOf, hperm],
      by simp [toUpdateRole, createRoleOf, hperm], ?_, ?_⟩
    · intro he
      simp [he] at ht
      simp [toUpdateRole, createRoleOf, ht]
    · intro he
      simp [he] at ht
      simp [toUpdateRole, createRoleOf, ht]

theorem normalize_permanent_grant_witness :
    ∃ r, ([⟨"admin", false, "", "2h", sampleClock 0⟩] :
          List CreateProjectGroupRequestRoles)[0]? = some r ∧
      r.TemporaryMode = "" ∧
      r.TemporaryRange = (types_String.StringValue "2h").ValueString ∧
      (types_String.StringNull.ValueString = "" →
        r.TemporaryAccessStartTime = sampleClock 0) ∧
      (types_String.StringNull.ValueString ≠ "" →
        parseRFC3339 types_String.StringNull.ValueString =
          some r.TemporaryAccessStartTime) :=
  (normalize_permanent_grant parseRFC3339 sampleClock
    [⟨.StringValue "admin", .BoolNull, .StringValue "2h", .StringNull⟩] 0
    ⟨.StringValue "admin", .BoolNull, .StringValue "2h", .StringNull⟩ rfl rfl).1
    [⟨"admin", false, "", "2h", sampleClock 0⟩] (by rfl)

/-! ## Read after Create (claim C1) -/

/-- With pairwise distinct slugs, the map of lines 264-267 returns each role of
the list at its own slug. -/
theorem stateRoleMap_of_mem (P : List ProjectGroupRole) (el : ProjectGroupRole)
    (hdistinct : ∀ a ∈ P, ∀ b ∈ P,
      a.RoleSlug.ValueString = b.RoleSlug.ValueString → a = b)
    (hel : el ∈ P) :
    ProjectGroupResource.Read.stateRoleMap P el.RoleSlug.ValueString = some el := by
  cases hm : ProjectGroupResource.Read.stateRoleMap P el.RoleSlug.ValueString with
  | none => exact absurd rfl ((stateRoleMap_none _ _).1 hm el hel)
  | some v =>
    obtain ⟨hv, hs⟩ := stateRoleMap_some _ _ _ hm
    rw [hdistinct v hv el hel hs]

/-- Read after Create, general form: for a desired list with pairwise distinct known
slugs in which every grant leaves range and start time null and has a null or known
`is_temporary`, when the remote system reports back the roles the builder of
`Create` sent, `Read` presents every grant that is not temporary exactly as desired,
and every temporary grant as desired except for `temporary_access_start_time`, which
is the formatted clock reading instead of null. -/
theorem read_after_create_presented (parse : String → Option Time) (clock : Nat → Time)
    (format : Time → String) (desired : List ProjectGroupRole)
    (sent : List CreateProjectGroupRequestRoles)
    (hdistinct : ∀ a ∈ desired, ∀ b ∈ desired,
      a.RoleSlug.ValueString = b.RoleSlug.ValueString → a = b)
    (hknown : ∀ el ∈ desired, ∃ s, el.RoleSlug = .StringValue s)
    (hflag : ∀ el ∈ desired, el.IsTemporary ≠ .BoolUnknown)
    (hunset : ∀ el ∈ desired,
      el.TemporaryRange = .StringNull ∧ el.TemporaryAccessStartTime = .StringNull)
    (hsent : ProjectGroupResource.Create.buildRoles parse clock desired = .ok sent)
    (i : Nat) (el : ProjectGroupRole) (hel : desired[i]? = some el) :
    (ProjectGroupResource.Read.planRoles format desired (sent.map reportedBack))[i]? =
      some (if el.IsTemporary.ValueBool then
              { el with TemporaryAccessStartTime := .StringValue (format (clock i)) }
            else el) := by
  have hmem : el ∈ desired := List.getElem?_mem hel
  obtain ⟨t, ht, hr⟩ := (create_buildRoles_ok parse clock desired sent hsent).2 i el hel
  obtain ⟨hrange, hstart⟩ := hunset el hmem
  obtain ⟨s, hs⟩ := hknown el hmem
  have ht2 : t = clock i := by
    unfold startTimeOf at ht
    simp [hstart, types_String.ValueString] at ht
    exact ht.symm
  subst ht2
  have hobs : (sent.map reportedBack)[i]? = some (reportedBack (createRoleOf el (clock i))) := by
    simp [List.getElem?_map, hr]
  have hslug : resolvedRoleSlug (reportedBack (createRoleOf el (clock i))) =
      el.RoleSlug.ValueString := by
    simp [resolvedRoleSlug, reportedBack, createRoleOf]
  rw [planRoles_getElem? format desired _ i _ hobs, presentRole_eq, hslug,
    stateRoleMap_of_mem desired el hdistinct hmem]
  have hf := hflag el hmem
  obtain ⟨slug, flag, range, start⟩ := el
  simp only at hrange hstart hs hf
  subst hrange hstart hs
  rcases flag with _ | _ | b
  · simp [reportedBack, createRoleOf, types_Bool.ValueBool, types_Bool.IsNull,
      types_String.ValueString]
  · exact absurd rfl hf
  · cases b <;>
      simp [reportedBack, createRoleOf, types_Bool.ValueBool, types_Bool.IsNull,
        types_String.ValueString, types_String.IsNull, TEMPORARY_RANGE_DEFAULT]

/-- C1 at the desired list `admin` (no optional field set), `viewer`
(`is_temporary = true`, no range, no start time): the builder of `Create` accepts
the list, and when the remote system reports back exactly the roles sent, `Read`
with the desired list as prior state presents `viewer` with
`temporary_access_start_time` set to the formatted clock reading instead of null, so
the stored list differs from the desired list. -/
theorem read_after_create_start_time_drift (parse : String → Option Time)
    (clock : Nat → Time) (format : Time → String) :
    ∃ sent,
      ProjectGroupResource.Create.buildRoles parse clock
          [⟨.StringValue "admin", .BoolNull, .StringNull, .StringNull⟩,
           ⟨.StringValue "viewer", .BoolValue true, .StringNull, .StringNull⟩] = .ok sent ∧
      ProjectGroupResource.Read.planRoles format
          [⟨.StringValue "admin", .BoolNull, .StringNull, .StringNull⟩,
           ⟨.StringValue "viewer", .BoolValue true, .StringNull, .StringNull⟩]
          (sent.map reportedBack) =
        [⟨.StringValue "admin", .BoolNull, .StringNull, .StringNull⟩,
         ⟨.StringValue "viewer", .BoolValue true, .StringNull,
           .StringValue (format (clock 1))⟩] ∧
      ProjectGroupResource.Read.planRoles format
          [⟨.StringValue "admin", .BoolNull, .StringNull, .StringNull⟩,
           ⟨.StringValue "viewer", .BoolValue true, .StringNull, .StringNull⟩]
          (sent.map reportedBack) ≠
        [⟨.StringValue "admin", .BoolNull, .StringNull, .StringNull⟩,
         ⟨.StringValue "viewer", .BoolValue true, .StringNull, .StringNull⟩] := by
  have hread : ProjectGroupResource.Read.planRoles format
      [⟨.StringValue "admin", .BoolNull, .StringNull, .StringNull⟩,
       ⟨.StringValue "viewer", .BoolValue true, .StringNull, .StringNull⟩]
      (([⟨"admin", false, "", "", clock 0⟩, ⟨"viewer", true, "relative", "1h", clock 1⟩] :
        List CreateProjectGroupRequestRoles).map reportedBack) =
      [⟨.StringValue "admin", .BoolNull, .StringNull, .StringNull⟩,
       ⟨.StringValue "viewer", .BoolValue true, .StringNull,
         .StringValue (format (clock 1))⟩] := by rfl
  refine ⟨[⟨"admin", false, "", "", clock 0⟩, ⟨"viewer", true, "relative", "1h", clock 1⟩],
    by rfl, hread, ?_⟩
  rw [hread]
  simp

/-! ## Start times in the role set builder: claims C11, C12 -/

/-- The loop of `Create` stops with the parse diagnostic of the first grant whose
non-empty start time does not parse. -/
theorem create_rolesLoop_error (parse : String → Option Time) (clock : Nat → Time)
    (el : ProjectGroupRole) (post : List ProjectGroupRole)
    (hne : el.TemporaryAccessStartTime.ValueString ≠ "")
    (hbad : parse el.TemporaryAccessStartTime.ValueString = none) :
    ∀ (pre : List ProjectGroupRole) (tick : Nat) (acc : List CreateProjectGroupRequestRoles)
      (h : Bool),
      (∀ x ∈ pre, x.TemporaryAccessStartTime.ValueString ≠ "" →
        (parse x.TemporaryAccessStartTime.ValueString).isSome = true) →
      ProjectGroupResource.Create.rolesLoop parse clock (pre ++ el :: post) tick acc h =
        .error (parseErrorDiagnostic el) := by
  intro pre
  induction pre with
  | nil =>
    intro tick acc h _
    rw [List.nil_append, create_rolesLoop_cons]
    have hst : startTimeOf parse (clock tick) el = none := by
      unfold startTimeOf
      simp [hne, hbad]
    simp only [hst]
  | cons a rest ih =>
    intro tick acc h hpre
    rw [List.cons_append, create_rolesLoop_cons]
    have hst : ∃ t, startTimeOf parse (clock tick) a = some t := by
      unfold startTimeOf
      by_cases hs : a.TemporaryAccessStartTime.ValueString = ""
      · exact ⟨clock tick, by simp [hs]⟩
      · obtain ⟨t, ht⟩ := Option.isSome_iff_exists.1 (hpre a (List.mem_cons_self _ _) hs)
        exact ⟨t, by simp [hs, ht]⟩
    obtain ⟨t, ht⟩ := hst
    simp only [ht]
    exact ih _ _ _ (fun x hx => hpre x (List.mem_cons_of_mem _ hx))

/-- The builders of `Create` and of `Update` fail with the parse diagnostic of the
first grant whose non-empty start time does not parse. -/
theorem buildRoles_error_of_malformed (parse : String → Option Time) (clock : Nat → Time)
    (pre : List ProjectGroupRole) (el : ProjectGroupRole) (post : List ProjectGroupRole)
    (hpre : ∀ x ∈ pre, x.TemporaryAccessStartTime.ValueString ≠ "" →
      (parse x.TemporaryAccessStartTime.ValueString).isSome = true)
    (hne : el.TemporaryAccessStartTime.ValueString ≠ "")
    (hbad : parse el.TemporaryAccessStartTime.ValueString = none) :
    ProjectGroupResource.Create.buildRoles parse clock (pre ++ el :: post) =
        .error (parseErrorDiagnostic el) ∧
      ProjectGroupResource.Update.buildRoles parse clock (pre ++ el :: post) =
        .error (parseErrorDiagnostic el) := by
  have hc : ProjectGroupResource.Create.buildRoles parse clock (pre ++ el :: post) =
      .error (parseErrorDiagnostic el) := by
    unfold ProjectGroupResource.Create.buildRoles
    rw [create_rolesLoop_error parse clock el post hne hbad pre 0 [] false hpre]
  exact ⟨hc, by rw [update_buildRoles_eq, hc]⟩

/-- The detail of the parse diagnostic contains the start time and the role slug. -/
theorem parseErrorDiagnostic_contains (el : ProjectGroupRole) :
    el.TemporaryAccessStartTime.ValueString.toList <:+:
        (parseErrorDiagnostic el).detail.toList ∧
      el.RoleSlug.ValueString.toList <:+: (parseErrorDiagnostic el).detail.toList := by
  unfold parseErrorDiagnostic
  simp only [String.toList, String.data_append]
  constructor
  · exact ((List.infix_append _ _ _).trans (List.prefix_append _ _).isInfix)
  · exact (List.suffix_append _ _).isInfix

set_option maxRecDepth 20000 in
/-- The parse diagnostic naming `yesterday` and `admin` contains neither `viewer`
nor `tomorrow`. -/
theorem admin_detail_lacks_viewer :
    ¬ ("viewer".toList <:+:
      "Must provider valid ISO timestamp for field TemporaryAccessStartTime yesterday, role admin".toList) ∧
    ¬ ("tomorrow".toList <:+:
      "Must provider valid ISO timestamp for field TemporaryAccessStartTime yesterday, role admin".toList) := by
  constructor <;> decide

/-- C11, as stated, fails: (1) when a permanent grant with a malformed start time
precedes the first temporary grant with a malformed start time, the diagnostic names
the permanent grant and its value, and contains neither the slug nor the value of the
temporary grant; (2) without machine identity authentication `Create` reports the
capability diagnostic; (3) with a changed group slug `Update` reports the group slug
diagnostic. -/
theorem malformed_start_time_counterexample :
    (ProjectGroupResource.Create (sampleClient ⟨false, "boom"⟩) parseRFC3339 sampleClock
        (.ok (sampleModel "devs"
          [⟨.StringValue "admin", .BoolValue false, .StringNull, .StringValue "yesterday"⟩,
           ⟨.StringValue "viewer", .BoolValue true, .StringNull,
             .StringValue "tomorrow"⟩]))).Diagnostics =
      [⟨"Error parsing field TemporaryAccessStartTime",
        "Must provider valid ISO timestamp for field TemporaryAccessStartTime yesterday, role admin"⟩] ∧
    ¬ ("viewer".toList <:+:
      "Must provider valid ISO timestamp for field TemporaryAccessStartTime yesterday, role admin".toList) ∧
    ¬ ("tomorrow".toList <:+:
      "Must provider valid ISO timestamp for field TemporaryAccessStartTime yesterday, role admin".toList) ∧
    (ProjectGroupResource.Create userAuthClient parseRFC3339 sampleClock
        (.ok (sampleModel "devs"
          [⟨.StringValue "viewer", .BoolValue true, .StringNull,
             .StringValue "tomorrow"⟩]))).Diagnostics =
      [⟨"Unable to create project group",
        "Only Machine Identity authentication is supported for this operation"⟩] ∧
    (ProjectGroupResource.Update (sampleClient ⟨false, "boom"⟩) parseRFC3339 sampleClock
        renderString
        (.ok (sampleModel "ops"
          [⟨.StringValue "viewer", .BoolValue true, .StringNull, .StringValue "tomorrow"⟩]))
        (.ok (sampleModel "devs" []))).Diagnostics =
      [⟨"Unable to update project group",
        "Cannot change group slug, previous group: \"devs\", new group: \"ops\""⟩] := by
  exact ⟨by rfl, admin_detail_lacks_viewer.1, admin_detail_lacks_viewer.2, by rfl, by decide⟩

/-- C11, amended: when the desired grant list contains a grant, temporary or not,
whose start time is non-empty and does not parse, and `el` is the first such grant,
then `Create` under machine identity authentication, and `Update` under machine
identity authentication with an unchanged group slug, add exactly the diagnostic
`Error parsing field TemporaryAccessStartTime` whose detail contains the invalid
value and the role slug of `el`, call no client method and leave the state unwritten;
no permanent role is required for this. -/
theorem malformed_start_time_is_rejected (client : Client) (parse : String → Option Time)
    (clock : Nat → Time) (render : types_String → String)
    (plan state : ProjectGroupResourceModel)
    (pre : List ProjectGroupRole) (el : ProjectGroupRole) (post : List ProjectGroupRole)
    (hauth : client.IsMachineIdentityAuth = true)
    (hroles : plan.Roles = pre ++ el :: post)
    (hpre : ∀ x ∈ pre, x.TemporaryAccessStartTime.ValueString ≠ "" →
      (parse x.TemporaryAccessStartTime.ValueString).isSome = true)
    (hne : el.TemporaryAccessStartTime.ValueString ≠ "")
    (hbad : parse el.TemporaryAccessStartTime.ValueString = none) :
    ProjectGroupResource.Create client parse clock (.ok plan) =
        { Diagnostics := [parseErrorDiagnostic el], State := .Unchanged, Calls := [] } ∧
    (plan.GroupSlug = state.GroupSlug →
      ProjectGroupResource.Update client parse clock render (.ok plan) (.ok state) =
        { Diagnostics := [parseErrorDiagnostic el], State := .Unchanged, Calls := [] }) ∧
    (parseErrorDiagnostic el).summary = "Error parsing field TemporaryAccessStartTime" ∧
    el.TemporaryAccessStartTime.ValueString.toList <:+:
      (parseErrorDiagnostic el).detail.toList ∧
    el.RoleSlug.ValueString.toList <:+: (parseErrorDiagnostic el).detail.toList := by
  obtain ⟨hc, hu⟩ := buildRoles_error_of_malformed parse clock pre el post hpre hne hbad
  rw [← hroles] at hc hu
  refine ⟨?_, ?_, rfl, (parseErrorDiagnostic_contains el).1,
    (parseErrorDiagnostic_contains el).2⟩
  · simp [ProjectGroupResource.Create, hauth, hc]
  · intro hslug
    simp [ProjectGroupResource.Update, hauth, hslug, hu]

theorem malformed_start_time_is_rejected_witness :
    ProjectGroupResource.Create (sampleClient ⟨false, "boom"⟩) parseRFC3339 sampleClock
        (.ok (sampleModel "devs"
          [⟨.StringValue "admin", .BoolValue false, .StringNull,
             .StringValue "2024-01-02T15:04:05Z"⟩,
           ⟨.StringValue "viewer", .BoolValue true, .StringNull,
             .StringValue "tomorrow"⟩])) =
      { Diagnostics :=
          [parseErrorDiagnostic
            ⟨.StringValue "viewer", .BoolValue true, .StringNull, .StringValue "tomorrow"⟩]
        State := .Unchanged
        Calls := [] } ∧
    ProjectGroupResource.Update (sampleClient ⟨false, "boom"⟩) parseRFC3339 sampleClock
        renderString
        (.ok (sampleModel "devs"
          [⟨.StringValue "admin", .BoolValue false, .StringNull,
             .StringValue "2024-01-02T15:04:05Z"⟩,
           ⟨.StringValue "viewer", .BoolValue true, .StringNull,
             .StringValue "tomorrow"⟩]))
        (.ok (sampleModel "devs" [])) =
      { Diagnostics :=
          [parseErrorDiagnostic
            ⟨.StringValue "viewer", .BoolValue true, .StringNull, .StringValue "tomorrow"⟩]
        State := .Unchanged
        Calls := [] } :=
  ⟨(malformed_start_time_is_rejected (sampleClient ⟨false, "boom"⟩) parseRFC3339 sampleClock
      renderString
      (sampleModel "devs"
        [⟨.StringValue "admin", .BoolValue false, .StringNull,
           .StringValue "2024-01-02T15:04:05Z"⟩,
         ⟨.StringValue "viewer", .BoolValue true, .StringNull, .StringValue "tomorrow"⟩])
      (sampleModel "devs" [])
      [⟨.StringValue "admin", .BoolValue false, .StringNull,
         .StringValue "2024-01-02T15:04:05Z"⟩]
      ⟨.StringValue "viewer", .BoolValue true, .StringNull, .StringValue "tomorrow"⟩ []
      rfl rfl (by decide) (by decide) (by decide)).1,
   (malformed_start_time_is_rejected (sampleClient ⟨false, "boom"⟩) parseRFC3339 sampleClock
      renderString
      (sampleModel "devs"
        [⟨.StringValue "admin", .BoolValue false, .StringNull,
           .StringValue "2024-01-02T15:04:05Z"⟩,
         ⟨.StringValue "viewer", .BoolValue true, .StringNull, .StringValue "tomorrow"⟩])
      (sampleModel "devs" [])
      [⟨.StringValue "admin", .BoolValue false, .StringNull,
         .StringValue "2024-01-02T15:04:05Z"⟩]
      ⟨.StringValue "viewer", .BoolValue true, .StringNull, .StringValue "tomorrow"⟩ []
      rfl rfl (by decide) (by decide) (by decide)).2.1 rfl⟩

/-- C12: in a list the builder accepts, the request role of a grant with
`isTemporary` true is temporary and has as `TemporaryAccessStartTime` the instant
parsed from the input string when that string is non-empty, and the clock reading
taken for that grant when it is unset or empty, in `Create` and in `Update`. -/
theorem temporary_grant_start_time (parse : String → Option Time) (clock : Nat → Time)
    (ps : List ProjectGroupRole) (i : Nat) (el : ProjectGroupRole)
    (hel : ps[i]? = some el) (htemp : el.IsTemporary.ValueBool = true) :
    (∀ out, ProjectGroupResource.Create.buildRoles parse clock ps = .ok out →
      ∃ r, out[i]? = some r ∧ r.IsTemporary = true ∧
        (el.TemporaryAccessStartTime.ValueString ≠ "" →
          parse el.TemporaryAccessStartTime.ValueString =
            some r.TemporaryAccessStartTime) ∧
        (el.TemporaryAccessStartTime.ValueString = "" →
          r.TemporaryAccessStartTime = clock i)) ∧
    (∀ out, ProjectGroupResource.Update.buildRoles parse clock ps = .ok out →
      ∃ r, out[i]? = some r ∧ r.IsTemporary = true ∧
        (el.TemporaryAccessStartTime.ValueString ≠ "" →
          parse el.TemporaryAccessStartTime.ValueString =
            some r.TemporaryAccessStartTime) ∧
        (el.TemporaryAccessStartTime.ValueString = "" →
          r.TemporaryAccessStartTime = clock i)) := by
  constructor
  · intro out hrun
    obtain ⟨t, ht, hr⟩ := (create_buildRoles_ok parse clock ps out hrun).2 i el hel
    unfold startTimeOf at ht
    refine ⟨_, hr, by simp [createRoleOf, htemp], ?_, ?_⟩
    · intro he
      simp [he] at ht
      simp [createRoleOf, ht]
    · intro he
      simp [he] at ht
      simp [createRoleOf, ht]
  · intro out hrun
    obtain ⟨t, ht, hr⟩ := (update_buildRoles_ok parse clock ps out hrun).2 i el hel
    unfold startTimeOf at ht
    refine ⟨_, hr, by simp [toUpdateRole, createRoleOf, htemp], ?_, ?_⟩
    · intro he
      simp [he] at ht
      simp [toUpdateRole, createRoleOf, ht]
    · intro he
      simp [he] at ht
      simp [toUpdateRole, createRoleOf, ht]

theorem temporary_grant_start_time_witness :
    (∃ r, ([⟨"admin", false, "", "", sampleClock 0⟩,
            ⟨"viewer", true, "relative", "2d", sampleTime⟩] :
          List CreateProjectGroupRequestRoles)[1]? = some r ∧ r.IsTemporary = true ∧
      ((types_String.StringValue "2024-01-02T15:04:05Z").ValueString ≠ "" →
        parseRFC3339 (types_String.StringValue "2024-01-02T15:04:05Z").ValueString =
          some r.TemporaryAccessStartTime) ∧
      ((types_String.StringValue "2024-01-02T15:04:05Z").ValueString = "" →
        r.TemporaryAccessStartTime = sampleClock 1)) ∧
    (∃ r, ([⟨"admin", false, "", "", sampleClock 0⟩,
            ⟨"viewer", true, "relative", "1h", sampleClock 1⟩] :
          List UpdateProjectGroupRequestRoles)[1]? = some r ∧ r.IsTemporary = true ∧
      (types_String.StringNull.ValueString ≠ "" →
        parseRFC3339 types_String.StringNull.ValueString =
          some r.TemporaryAccessStartTime) ∧
      (types_String.StringNull.ValueString = "" →
        r.TemporaryAccessStartTime = sampleClock 1)) :=
  ⟨(temporary_grant_start_time parseRFC3339 sampleClock
      [⟨.StringValue "admin", .BoolNull, .StringNull, .StringNull⟩,
       ⟨.StringValue "viewer", .BoolValue true, .StringValue "2d",
         .StringValue "2024-01-02T15:04:05Z"⟩] 1
      ⟨.StringValue "viewer", .BoolValue true, .StringValue "2d",
        .StringValue "2024-01-02T15:04:05Z"⟩ rfl rfl).1
      [⟨"admin", false, "", "", sampleClock 0⟩, ⟨"viewer", true, "relative", "2d", sampleTime⟩]
      (by rfl),
   (temporary_grant_start_time parseRFC3339 sampleClock
      [⟨.StringValue "admin", .BoolNull, .StringNull, .StringNull⟩,
       ⟨.StringValue "viewer", .BoolValue true, .StringNull, .StringNull⟩] 1
      ⟨.StringValue "viewer", .BoolValue true, .StringNull, .StringNull⟩ rfl rfl).2
      [⟨"admin", false, "", "", sampleClock 0⟩,
       ⟨"viewer", true, "relative", "1h", sampleClock 1⟩]
      (by rfl)⟩

/-! ## Lifecycle operations: claims C13 - C18 -/

set_option maxRecDepth 20000 in
/-- The capability diagnostic contains neither of the rendered slugs `"devs"`, `"ops"`. -/
theorem capability_detail_lacks_slugs :
    ¬ ((renderString (.StringValue "devs")).toList <:+:
      "Only Machine Identity authentication is supported for this operation".toList) ∧
    ¬ ((renderString (.StringValue "ops")).toList <:+:
      "Only Machine Identity authentication is supported for this operation".toList) := by
  constructor <;> decide

/-- C13, as stated, fails: without machine identity authentication an `Update` with
a changed group slug reports the capability diagnostic, which names neither group
slug. -/
theorem group_slug_is_immutable_counterexample :
    (ProjectGroupResource.Update userAuthClient parseRFC3339 sampleClock renderString
        (.ok (sampleModel "ops" [])) (.ok (sampleModel "devs" []))).Diagnostics =
      [⟨"Unable to update project group",
        "Only Machine Identity authentication is supported for this operation"⟩] ∧
    ¬ ((renderString (.StringValue "devs")).toList <:+:
      "Only Machine Identity authentication is supported for this operation".toList) ∧
    ¬ ((renderString (.StringValue "ops")).toList <:+:
      "Only Machine Identity authentication is supported for this operation".toList) :=
  ⟨by rfl, capability_detail_lacks_slugs.1, capability_detail_lacks_slugs.2⟩

/-- C13, amended: for every `Update` whose desired `group_slug` differs from the
recorded one, whatever the desired roles are, `Update` adds exactly one error
diagnostic, calls no client method and leaves the state unwritten; when machine
identity authentication is configured, that diagnostic is the group slug diagnostic,
whose detail contains the rendered previous and the rendered new group slug. -/
theorem group_slug_is_immutable (client : Client) (parse : String → Option Time)
    (clock : Nat → Time) (render : types_String → String)
    (plan state : ProjectGroupResourceModel)
    (hneq : plan.GroupSlug ≠ state.GroupSlug) :
    (ProjectGroupResource.Update client parse clock render (.ok plan) (.ok state)).Calls
        = [] ∧
    (ProjectGroupResource.Update client parse clock render (.ok plan) (.ok state)).State
        = .Unchanged ∧
    (ProjectGroupResource.Update client parse clock render
        (.ok plan) (.ok state)).Diagnostics.length = 1 ∧
    (client.IsMachineIdentityAuth = true →
      (ProjectGroupResource.Update client parse clock render
          (.ok plan) (.ok state)).Diagnostics =
        [{ summary := "Unable to update project group"
           detail := "Cannot change group slug, previous group: " ++
             render state.GroupSlug ++ ", new group: " ++ render plan.GroupSlug }] ∧
      (render state.GroupSlug).toList <:+:
        ("Cannot change group slug, previous group: " ++
          render state.GroupSlug ++ ", new group: " ++ render plan.GroupSlug).toList ∧
      (render plan.GroupSlug).toList <:+:
        ("Cannot change group slug, previous group: " ++
          render state.GroupSlug ++ ", new group: " ++ render plan.GroupSlug).toList) := by
  cases hauth : client.IsMachineIdentityAuth with
  | false => simp [ProjectGroupResource.Update, hauth]
  | true =>
    refine ⟨by simp [ProjectGroupResource.Update, hauth, hneq],
      by simp [ProjectGroupResource.Update, hauth, hneq],
      by simp [ProjectGroupResource.Update, hauth, hneq], ?_⟩
    intro _
    refine ⟨by simp [ProjectGroupResource.Update, hauth, hneq], ?_, ?_⟩
    · simp only [String.toList, String.data_append]
      exact ((List.infix_append _ _ _).trans (List.prefix_append _ _).isInfix)
    · simp only [String.toList, String.data_append]
      exact (List.suffix_append _ _).isInfix

theorem group_slug_is_immutable_witness :
    (ProjectGroupResource.Update (sampleClient ⟨false, "boom"⟩) parseRFC3339 sampleClock
        renderString
        (.ok (sampleModel "ops" [⟨.StringValue "admin", .BoolNull, .StringNull, .StringNull⟩]))
        (.ok (sampleModel "devs" []))).Calls = [] ∧
    (ProjectGroupResource.Update (sampleClient ⟨false, "boom"⟩) parseRFC3339 sampleClock
        renderString
        (.ok (sampleModel "ops" [⟨.StringValue "admin", .BoolNull, .StringNull, .StringNull⟩]))
        (.ok (sampleModel "devs" []))).Diagnostics =
      [{ summary := "Unable to update project group"
         detail := "Cannot change group slug, previous group: " ++
           renderString (.StringValue "devs") ++ ", new group: " ++
           renderString (.StringValue "ops") }] :=
  ⟨(group_slug_is_immutable (sampleClient ⟨false, "boom"⟩) parseRFC3339 sampleClock
      renderString
      (sampleModel "ops" [⟨.StringValue "admin", .BoolNull, .StringNull, .StringNull⟩])
      (sampleModel "devs" []) (by decide)).1,
   ((group_slug_is_immutable (sampleClient ⟨false, "boom"⟩) parseRFC3339 sampleClock
      renderString
      (sampleModel "ops" [⟨.StringValue "admin", .BoolNull, .StringNull, .StringNull⟩])
      (sampleModel "devs" []) (by decide)).2.2.2 rfl).1⟩

/-- C14: under machine identity authentication, when the membership fetch returns
`ErrNotFound`, `Read` removes the resource from state and adds no diagnostic; when it
returns any other error, `Read` adds an error diagnostic and does not write the
state. -/
theorem read_not_found_signals_absence (client : Client) (format : Time → String)
    (describe : ProjectGroupRole → String)
    (state : ProjectGroupResourceModel) (err : GoError)
    (hauth : client.IsMachineIdentityAuth = true)
    (hfetch : client.GetProjectGroupMembership
        { ProjectSlug := state.ProjectSlug.ValueString
          GroupSlug := state.GroupSlug.ValueString } = .error err) :
    (err.IsErrNotFound = true →
      (ProjectGroupResource.Read client format describe (.ok state)).State = .RemoveResource ∧
      (ProjectGroupResource.Read client format describe (.ok state)).Diagnostics = []) ∧
    (err.IsErrNotFound = false →
      (ProjectGroupResource.Read client format describe (.ok state)).State = .Unchanged ∧
      (ProjectGroupResource.Read client format describe (.ok state)).Diagnostics =
        [{ summary := "Error reading project group membership"
           detail :=
             "Couldn't read project group membership from Infiscial, unexpected error: "
               ++ err.Error }]) := by
  constructor
  · intro hnf
    simp [ProjectGroupResource.Read, hauth, hfetch, hnf]
  · intro hnf
    simp [ProjectGroupResource.Read, hauth, hfetch, hnf]

theorem read_not_found_signals_absence_witness :
    ((ProjectGroupResource.Read (sampleClient ⟨true, "not found"⟩) formatRFC3339 describeRole
        (.ok (sampleModel "devs" []))).State = .RemoveResource ∧
      (ProjectGroupResource.Read (sampleClient ⟨true, "not found"⟩) formatRFC3339 describeRole
        (.ok (sampleModel "devs" []))).Diagnostics = []) ∧
    ((ProjectGroupResource.Read (sampleClient ⟨false, "boom"⟩) formatRFC3339 describeRole
        (.ok (sampleModel "devs" []))).State = .Unchanged ∧
      (ProjectGroupResource.Read (sampleClient ⟨false, "boom"⟩) formatRFC3339 describeRole
        (.ok (sampleModel "devs" []))).Diagnostics =
        [{ summary := "Error reading project group membership"
           detail :=
             "Couldn't read project group membership from Infiscial, unexpected error: "
               ++ "boom" }]) :=
  ⟨(read_not_found_signals_absence (sampleClient ⟨true, "not found"⟩) formatRFC3339
      describeRole (sampleModel "devs" []) ⟨true, "not found"⟩ rfl rfl).1 rfl,
   (read_not_found_signals_absence (sampleClient ⟨false, "boom"⟩) formatRFC3339
      describeRole (sampleModel "devs" []) ⟨false, "boom"⟩ rfl rfl).2 rfl⟩

/-- C15: when the builder of `Create` (of `Update`) rejects the desired grant list,
for the missing permanent role or for a malformed start time, `Create` (`Update`)
calls no client method at all, writes no state and adds an error diagnostic. -/
theorem validation_precedes_api_calls (client : Client) (parse : String → Option Time)
    (clock : Nat → Time) (render : types_String → String)
    (plan : ProjectGroupResourceModel)
    (stateGet : Except Diagnostic ProjectGroupResourceModel) :
    (∀ d, ProjectGroupResource.Create.buildRoles parse clock plan.Roles = .error d →
      (ProjectGroupResource.Create client parse clock (.ok plan)).Calls = [] ∧
      (ProjectGroupResource.Create client parse clock (.ok plan)).State = .Unchanged ∧
      (ProjectGroupResource.Create client parse clock (.ok plan)).Diagnostics ≠ []) ∧
    (∀ d, ProjectGroupResource.Update.buildRoles parse clock plan.Roles = .error d →
      (ProjectGroupResource.Update client parse clock render (.ok plan) stateGet).Calls
        = [] ∧
      (ProjectGroupResource.Update client parse clock render (.ok plan) stateGet).State
        = .Unchanged ∧
      (ProjectGroupResource.Update client parse clock render
        (.ok plan) stateGet).Diagnostics ≠ []) := by
  constructor
  · intro d hd
    cases hauth : client.IsMachineIdentityAuth <;>
      simp [ProjectGroupResource.Create, hauth, hd]
  · intro d hd
    cases hauth : client.IsMachineIdentityAuth with
    | false => simp [ProjectGroupResource.Update, hauth]
    | true =>
      cases stateGet with
      | error e => simp [ProjectGroupResource.Update, hauth]
      | ok state =>
        by_cases hslug : plan.GroupSlug = state.GroupSlug <;>
          simp [ProjectGroupResource.Update, hauth, hslug, hd]

theorem validation_precedes_api_calls_witness :
    ((ProjectGroupResource.Create (sampleClient ⟨false, "boom"⟩) parseRFC3339 sampleClock
        (.ok (sampleModel "devs"
          [⟨.StringValue "viewer", .BoolValue true, .StringNull, .StringNull⟩]))).Calls = [] ∧
      (ProjectGroupResource.Create (sampleClient ⟨false, "boom"⟩) parseRFC3339 sampleClock
        (.ok (sampleModel "devs"
          [⟨.StringValue "viewer", .BoolValue true, .StringNull, .StringNull⟩]))).State
        = .Unchanged ∧
      (ProjectGroupResource.Create (sampleClient ⟨false, "boom"⟩) parseRFC3339 sampleClock
        (.ok (sampleModel "devs"
          [⟨.StringValue "viewer", .BoolValue true, .StringNull,
            .StringNull⟩]))).Diagnostics ≠ []) ∧
    ((ProjectGroupResource.Update (sampleClient ⟨false, "boom"⟩) parseRFC3339 sampleClock
        renderString
        (.ok (sampleModel "devs"
          [⟨.StringValue "admin", .BoolNull, .StringNull, .StringValue "tomorrow"⟩]))
        (.ok (sampleModel "devs" []))).Calls = [] ∧
      (ProjectGroupResource.Update (sampleClient ⟨false, "boom"⟩) parseRFC3339 sampleClock
        renderString
        (.ok (sampleModel "devs"
          [⟨.StringValue "admin", .BoolNull, .StringNull, .StringValue "tomorrow"⟩]))
        (.ok (sampleModel "devs" []))).State = .Unchanged ∧
      (ProjectGroupResource.Update (sampleClient ⟨false, "boom"⟩) parseRFC3339 sampleClock
        renderString
        (.ok (sampleModel "devs"
          [⟨.StringValue "admin", .BoolNull, .StringNull, .StringValue "tomorrow"⟩]))
        (.ok (sampleModel "devs" []))).Diagnostics ≠ []) :=
  ⟨(validation_precedes_api_calls (sampleClient ⟨false, "boom"⟩) parseRFC3339 sampleClock
      renderString
      (sampleModel "devs" [⟨.StringValue "viewer", .BoolValue true, .StringNull, .StringNull⟩])
      (.ok (sampleModel "devs" []))).1 permanentRoleDiagnostic (by rfl),
   (validation_precedes_api_calls (sampleClient ⟨false, "boom"⟩) parseRFC3339 sampleClock
      renderString
      (sampleModel "devs"
        [⟨.StringValue "admin", .BoolNull, .StringNull, .StringValue "tomorrow"⟩])
      (.ok (sampleModel "devs" []))).2
      (parseErrorDiagnostic
        ⟨.StringValue "admin", .BoolNull, .StringNull, .StringValue "tomorrow"⟩) (by rfl)⟩

/-- C16: when the client is not configured for machine identity authentication,
each of `Create`, `Read`, `Update` and `Delete`, on every input, adds exactly its
capability diagnostic, calls no client method and leaves the state unwritten. -/
theorem capability_check_fails_fast (client : Client) (parse : String → Option Time)
    (clock : Nat → Time) (format : Time → String) (describe : ProjectGroupRole → String)
    (render : types_String → String)
    (planGet stateGet : Except Diagnostic ProjectGroupResourceModel)
    (hauth : client.IsMachineIdentityAuth = false) :
    ProjectGroupResource.Create client parse clock planGet =
      { Diagnostics :=
          [⟨"Unable to create project group",
            "Only Machine Identity authentication is supported for this operation"⟩]
        State := .Unchanged
        Calls := [] } ∧
    ProjectGroupResource.Read client format describe stateGet =
      { Diagnostics :=
          [⟨"Unable to read project group",
            "Only Machine Identity authentication is supported for this operation"⟩]
        State := .Unchanged
        Calls := [] } ∧
    ProjectGroupResource.Update client parse clock render planGet stateGet =
      { Diagnostics :=
          [⟨"Unable to update project group",
            "Only Machine Identity authentication is supported for this operation"⟩]
        State := .Unchanged
        Calls := [] } ∧
    ProjectGroupResource.Delete client stateGet =
      { Diagnostics :=
          [⟨"Unable to delete project group",
            "Only Machine Identity authentication is supported for this operation"⟩]
        State := .Unchanged
        Calls := [] } := by
  refine ⟨?_, ?_, ?_, ?_⟩
  · simp [ProjectGroupResource.Create, hauth]
  · simp [ProjectGroupResource.Read, hauth]
  · simp [ProjectGroupResource.Update, hauth]
  · simp [ProjectGroupResource.Delete, hauth]

theorem capability_check_fails_fast_witness :
    (ProjectGroupResource.Create userAuthClient parseRFC3339 sampleClock
        (.ok (sampleModel "devs"
          [⟨.StringValue "admin", .BoolNull, .StringNull, .StringNull⟩]))).Calls = [] ∧
    (ProjectGroupResource.Delete userAuthClient (.ok (sampleModel "devs" []))).Diagnostics =
      [⟨"Unable to delete project group",
        "Only Machine Identity authentication is supported for this operation"⟩] :=
  ⟨congrArg Outcome.Calls
      (capability_check_fails_fast userAuthClient parseRFC3339 sampleClock formatRFC3339
        describeRole renderString
        (.ok (sampleModel "devs"
          [⟨.StringValue "admin", .BoolNull, .StringNull, .StringNull⟩]))
        (.ok (sampleModel "devs" [])) rfl).1,
   congrArg Outcome.Diagnostics
      (capability_check_fails_fast userAuthClient parseRFC3339 sampleClock formatRFC3339
        describeRole renderString
        (.ok (sampleModel "devs"
          [⟨.StringValue "admin", .BoolNull, .StringNull, .StringNull⟩]))
        (.ok (sampleModel "devs" [])) rfl).2.2.2⟩

/-- C17: for a desired record the builder accepts, when (under machine identity
authentication, without which no call is issued) the project lookup and the create
call both succeed, `Create` adds no diagnostic and sets the state to a record with
`membership_id` the id returned by the create call, `project_slug` the slug returned
by the lookup, and `project_id`, `group_slug` and `roles` those of the desired
record. -/
theorem create_records_desired_state (client : Client) (parse : String → Option Time)
    (clock : Nat → Time) (plan : ProjectGroupResourceModel)
    (roles : List CreateProjectGroupRequestRoles) (projectDetail : ProjectDetail)
    (projectGroupResponse : CreateProjectGroupResponse)
    (hauth : client.IsMachineIdentityAuth = true)
    (hroles : ProjectGroupResource.Create.buildRoles parse clock plan.Roles = .ok roles)
    (hlookup : client.GetProjectById { ID := plan.ProjectID.ValueString }
      = .ok projectDetail)
    (hcreate : client.CreateProjectGroup
        { ProjectSlug := projectDetail.Slug
          GroupSlug := plan.GroupSlug.ValueString
          Roles := roles } = .ok projectGroupResponse) :
    (ProjectGroupResource.Create client parse clock (.ok plan)).Diagnostics = [] ∧
    (ProjectGroupResource.Create client parse clock (.ok plan)).State =
      .Set { ProjectID := plan.ProjectID
             ProjectSlug := .StringValue projectDetail.Slug
             GroupSlug := plan.GroupSlug
             Roles := plan.Roles
             MembershipID := .StringValue projectGroupResponse.Membership.ID } := by
  constructor <;> simp [ProjectGroupResource.Create, hauth, hroles, hlookup, hcreate]

theorem create_records_desired_state_witness :
    (ProjectGroupResource.Create (sampleClient ⟨false, "boom"⟩) parseRFC3339 sampleClock
        (.ok { ProjectID := .StringValue "p-1"
               ProjectSlug := .StringUnknown
               GroupSlug := .StringValue "devs"
               Roles := [⟨.StringValue "admin", .BoolNull, .StringNull, .StringNull⟩,
                         ⟨.StringValue "viewer", .BoolValue true, .StringNull, .StringNull⟩]
               MembershipID := .StringUnknown })).Diagnostics = [] ∧
    (ProjectGroupResource.Create (sampleClient ⟨false, "boom"⟩) parseRFC3339 sampleClock
        (.ok { ProjectID := .StringValue "p-1"
               ProjectSlug := .StringUnknown
               GroupSlug := .StringValue "devs"
               Roles := [⟨.StringValue "admin", .BoolNull, .StringNull, .StringNull⟩,
                         ⟨.StringValue "viewer", .BoolValue true, .StringNull, .StringNull⟩]
               MembershipID := .StringUnknown })).State =
      .Set { ProjectID := .StringValue "p-1"
             ProjectSlug := .StringValue "proj"
             GroupSlug := .StringValue "devs"
             Roles := [⟨.StringValue "admin", .BoolNull, .StringNull, .StringNull⟩,
                       ⟨.StringValue "viewer", .BoolValue true, .StringNull, .StringNull⟩]
             MembershipID := .StringValue "m-1" } :=
  create_records_desired_state (sampleClient ⟨false, "boom"⟩) parseRFC3339 sampleClock
    { ProjectID := .StringValue "p-1"
      ProjectSlug := .StringUnknown
      GroupSlug := .StringValue "devs"
      Roles := [⟨.StringValue "admin", .BoolNull, .StringNull, .StringNull⟩,
                ⟨.StringValue "viewer", .BoolValue true, .StringNull, .StringNull⟩]
      MembershipID := .StringUnknown }
    [⟨"admin", false, "", "", sampleClock 0⟩, ⟨"viewer", true, "relative", "1h", sampleClock 1⟩]
    ⟨"proj"⟩ ⟨⟨"m-1"⟩⟩ rfl (by rfl) rfl rfl

/-- C18: on every input and for every behaviour of the client, `Create` issues no
call, or the project lookup alone (then the lookup failed), or the project lookup
followed by the create call (then the lookup succeeded); `Read`, `Update` and
`Delete` issue no call or exactly one: the fetch, the update, the delete. -/
theorem bounded_call_sequence (client : Client) (parse : String → Option Time)
    (clock : Nat → Time) (format : Time → String) (describe : ProjectGroupRole → String)
    (render : types_String → String)
    (planGet stateGet : Except Diagnostic ProjectGroupResourceModel) :
    ((ProjectGroupResource.Create client parse clock planGet).Calls = [] ∨
      (∃ req err, client.GetProjectById req = .error err ∧
        (ProjectGroupResource.Create client parse clock planGet).Calls =
          [.GetProjectById req]) ∨
      (∃ req projectDetail creq, client.GetProjectById req = .ok projectDetail ∧
        (ProjectGroupResource.Create client parse clock planGet).Calls =
          [.GetProjectById req, .CreateProjectGroup creq])) ∧
    ((ProjectGroupResource.Read client format describe stateGet).Calls = [] ∨
      ∃ req, (ProjectGroupResource.Read client format describe stateGet).Calls =
        [.GetProjectGroupMembership req]) ∧
    ((ProjectGroupResource.Update client parse clock render planGet stateGet).Calls = [] ∨
      ∃ req, (ProjectGroupResource.Update client parse clock render planGet stateGet).Calls =
        [.UpdateProjectGroup req]) ∧
    ((ProjectGroupResource.Delete client stateGet).Calls = [] ∨
      ∃ req, (ProjectGroupResource.Delete client stateGet).Calls =
        [.DeleteProjectGroup req]) := by
  refine ⟨?_, ?_, ?_, ?_⟩
  · cases hauth : client.IsMachineIdentityAuth with
    | false => simp [ProjectGroupResource.Create, hauth]
    | true =>
      cases planGet with
      | error d => simp [ProjectGroupResource.Create, hauth]
      | ok plan =>
        cases hb : ProjectGroupResource.Create.buildRoles parse clock plan.Roles with
        | error d => simp [ProjectGroupResource.Create, hauth, hb]
        | ok roles =>
          cases hl : client.GetProjectById { ID := plan.ProjectID.ValueString } with
          | error err =>
            refine Or.inr (Or.inl ⟨_, err, hl, ?_⟩)
            simp [ProjectGroupResource.Create, hauth, hb, hl]
          | ok projectDetail =>
            refine Or.inr (Or.inr ⟨_, projectDetail,
              { ProjectSlug := projectDetail.Slug
                GroupSlug := plan.GroupSlug.ValueString
                Roles := roles }, hl, ?_⟩)
            cases hc : client.CreateProjectGroup
                { ProjectSlug := projectDetail.Slug
                  GroupSlug := plan.GroupSlug.ValueString
                  Roles := roles } <;>
              simp [ProjectGroupResource.Create, hauth, hb, hl, hc]
  · cases hauth : client.IsMachineIdentityAuth with
    | false => simp [ProjectGroupResource.Read, hauth]
    | true =>
      cases stateGet with
      | error d => simp [ProjectGroupResource.Read, hauth]
      | ok state =>
        right
        refine ⟨{ ProjectSlug := state.ProjectSlug.ValueString
                  GroupSlug := state.GroupSlug.ValueString }, ?_⟩
        cases hf : client.GetProjectGroupMembership
            { ProjectSlug := state.ProjectSlug.ValueString
              GroupSlug := state.GroupSlug.ValueString } with
        | error err =>
          cases hn : err.IsErrNotFound <;> simp [ProjectGroupResource.Read, hauth, hf, hn]
        | ok r =>
          cases hdup : duplicateSetElementDiagnostics describe
              (ProjectGroupResource.Read.planRoles format state.Roles r.Membership.Roles) <;>
            simp [ProjectGroupResource.Read, hauth, hf, hdup]
  · cases hauth : client.IsMachineIdentityAuth with
    | false => simp [ProjectGroupResource.Update, hauth]
    | true =>
      cases planGet with
      | error d => simp [ProjectGroupResource.Update, hauth]
      | ok plan =>
        cases stateGet with
        | error d => simp [ProjectGroupResource.Update, hauth]
        | ok state =>
          by_cases hslug : plan.GroupSlug = state.GroupSlug
          · cases hb : ProjectGroupResource.Update.buildRoles parse clock plan.Roles with
            | error d => simp [ProjectGroupResource.Update, hauth, hslug, hb]
            | ok roles =>
              right
              refine ⟨{ ProjectSlug := state.ProjectSlug.ValueString
                        GroupSlug := plan.GroupSlug.ValueString
                        Roles := roles }, ?_⟩
              cases hu : client.UpdateProjectGroup
                  { ProjectSlug := state.ProjectSlug.ValueString
                    GroupSlug := plan.GroupSlug.ValueString
                    Roles := roles } <;>
                (rw [hslug] at hu; simp [ProjectGroupResource.Update, hauth, hslug, hb, hu])
          · simp [ProjectGroupResource.Update, hauth, hslug]
  · cases hauth : client.IsMachineIdentityAuth with
    | false => simp [ProjectGroupResource.Delete, hauth]
    | true =>
      cases stateGet with
      | error d => simp [ProjectGroupResource.Delete, hauth]
      | ok state =>
        right
        refine ⟨{ ProjectSlug := state.ProjectSlug.ValueString
                  GroupSlug := state.GroupSlug.ValueString }, ?_⟩
        cases hd : client.DeleteProjectGroup
            { ProjectSlug := state.ProjectSlug.ValueString
              GroupSlug := state.GroupSlug.ValueString } <;>
          simp [ProjectGroupResource.Delete, hauth, hd]

/-! ## Create and Update build the same role set (claim C19) -/

/-- C19: for the same clock, the role-building loops of `Create` (default range
`TEMPORARY_RANGE_DEFAULT`, taken to be `"1h"`) and of `Update` (default range the
literal `"1h"`) either both fail with the same diagnostic, or both return lists of
equal length whose `i`-th elements agree on `Role`, `IsTemporary`, `TemporaryMode`,
`TemporaryRange` and `TemporaryAccessStartTime`, the `Role` and `IsTemporary` being
the role slug and the `isTemporary` value of the `i`-th desired grant. -/
theorem create_update_build_same_roles (parse : String → Option Time) (clock : Nat → Time)
    (ps : List ProjectGroupRole) :
    (∃ d, ProjectGroupResource.Create.buildRoles parse clock ps = .error d ∧
      ProjectGroupResource.Update.buildRoles parse clock ps = .error d) ∨
    (∃ cs us, ProjectGroupResource.Create.buildRoles parse clock ps = .ok cs ∧
      ProjectGroupResource.Update.buildRoles parse clock ps = .ok us ∧
      cs.length = us.length ∧ cs.length = ps.length ∧
      ∀ i, i < ps.length →
        ∃ c u el, cs[i]? = some c ∧ us[i]? = some u ∧ ps[i]? = some el ∧
          c.Role = u.Role ∧ c.IsTemporary = u.IsTemporary ∧
          c.TemporaryMode = u.TemporaryMode ∧ c.TemporaryRange = u.TemporaryRange ∧
          c.TemporaryAccessStartTime = u.TemporaryAccessStartTime ∧
          c.Role = el.RoleSlug.ValueString ∧ c.IsTemporary = el.IsTemporary.ValueBool) := by
  cases hc : ProjectGroupResource.Create.buildRoles parse clock ps with
  | error d =>
    exact Or.inl ⟨d, rfl, by rw [update_buildRoles_eq, hc]⟩
  | ok cs =>
    obtain ⟨hlen, hget⟩ := create_buildRoles_ok parse clock ps cs hc
    refine Or.inr ⟨cs, cs.map toUpdateRole, rfl, by rw [update_buildRoles_eq, hc],
      by simp, hlen, ?_⟩
    intro i hi
    have hel : ps[i]? = some ps[i] := List.getElem?_eq_getElem hi
    obtain ⟨t, _, hr⟩ := hget i ps[i] hel
    exact ⟨createRoleOf ps[i] t, toUpdateRole (createRoleOf ps[i] t), ps[i], hr,
      by simp [List.getElem?_map, hr], hel, rfl, rfl, rfl, rfl, rfl, rfl, rfl⟩

/-! ## The smoother under distinct slugs (claim C20) -/

/-- Roles that do not carry the slug leave the lookup of the slug as it was. -/
theorem foldl_insert_of_not_mem (l : List ProjectGroupRole) (m0 : RoleMap) (s : String)
    (h : ∀ q ∈ l, q.RoleSlug.ValueString ≠ s) :
    (l.foldl (fun m role => RoleMap.insert m role.RoleSlug.ValueString role) m0) s = m0 s := by
  induction l generalizing m0 with
  | nil => rfl
  | cons a l ih =>
    rw [List.foldl_cons, ih _ (fun q hq => h q (List.mem_cons_of_mem _ hq))]
    unfold RoleMap.insert
    have ha : s ≠ a.RoleSlug.ValueString := Ne.symm (h a (List.mem_cons_self _ _))
    simp [ha]

/-- The map of lines 264-267 returns, at a slug, the last role of the list carrying
that slug. -/
theorem stateRoleMap_last (pre : List ProjectGroupRole) (p : ProjectGroupRole)
    (post : List ProjectGroupRole)
    (h : ∀ q ∈ post, q.RoleSlug.ValueString ≠ p.RoleSlug.ValueString) :
    ProjectGroupResource.Read.stateRoleMap (pre ++ p :: post) p.RoleSlug.ValueString
      = some p := by
  unfold ProjectGroupResource.Read.stateRoleMap
  rw [List.foldl_append, List.foldl_cons, foldl_insert_of_not_mem _ _ _ h]
  simp [RoleMap.insert]

/-- The loop body of `Read` reads the map at the resolved slug only. -/
theorem presentRole_congr (format : Time → String) (m1 m2 : RoleMap) (el : MembershipRole)
    (h : m1 (resolvedRoleSlug el) = m2 (resolvedRoleSlug el)) :
    ProjectGroupResource.Read.presentRole format m1 el =
      ProjectGroupResource.Read.presentRole format m2 el := by
  rw [presentRole_eq format m1 el, presentRole_eq format m2 el, h]

/-- C20: for every prior role list `P` and every observed role list `O` whose
resolved role slugs are pairwise distinct, smoothing `O` against the result of
smoothing `O` against `P` gives the result of smoothing `O` against `P`; and when `p`
is the last grant of `P` carrying its slug, the map of recorded roles returns `p` at
that slug and every observed grant of that resolved slug is presented as it is
against `p` alone. -/
theorem smoother_fixed_point_distinct_slugs (format : Time → String)
    (P : List ProjectGroupRole) (O : List MembershipRole)
    (hO : (O.map resolvedRoleSlug).Nodup) :
    ProjectGroupResource.Read.planRoles format
        (ProjectGroupResource.Read.planRoles format P O) O =
      ProjectGroupResource.Read.planRoles format P O ∧
    ∀ (pre : List ProjectGroupRole) (p : ProjectGroupRole) (post : List ProjectGroupRole),
      P = pre ++ p :: post →
      (∀ q ∈ post, q.RoleSlug.ValueString ≠ p.RoleSlug.ValueString) →
      ProjectGroupResource.Read.stateRoleMap P p.RoleSlug.ValueString = some p ∧
      ∀ (i : Nat) (el : MembershipRole), O[i]? = some el →
        resolvedRoleSlug el = p.RoleSlug.ValueString →
        (ProjectGroupResource.Read.planRoles format P O)[i]? =
          (ProjectGroupResource.Read.planRoles format [p] [el])[0]? := by
  constructor
  · rw [planRoles_eq_map format P O, planRoles_eq_map format _ O]
    apply List.map_congr_left
    intro el hel
    apply presentRole_second_pass format P O el hel
    intro other hother hs
    rw [List.inj_on_of_nodup_map hO hother hel hs]
    exact ⟨rfl, rfl⟩
  · intro pre p post hP hlast
    subst hP
    have hmap := stateRoleMap_last pre p post hlast
    refine ⟨hmap, ?_⟩
    intro i el hel hs
    rw [planRoles_getElem? format _ O i el hel,
      planRoles_getElem? format [p] [el] 0 el rfl]
    congr 1
    apply presentRole_congr
    rw [hs, hmap]
    simp [ProjectGroupResource.Read.stateRoleMap, RoleMap.insert]

theorem smoother_fixed_point_distinct_slugs_witness :
    ProjectGroupResource.Read.planRoles formatRFC3339
        (ProjectGroupResource.Read.planRoles formatRFC3339
          [⟨.StringValue "admin", .BoolNull, .StringNull, .StringNull⟩,
           ⟨.StringValue "admin", .BoolValue false, .StringNull, .StringNull⟩]
          [observedRole "admin" false "", observedRole "viewer" true "1h"])
        [observedRole "admin" false "", observedRole "viewer" true "1h"] =
      ProjectGroupResource.Read.planRoles formatRFC3339
        [⟨.StringValue "admin", .BoolNull, .StringNull, .StringNull⟩,
         ⟨.StringValue "admin", .BoolValue false, .StringNull, .StringNull⟩]
        [observedRole "admin" false "", observedRole "viewer" true "1h"] ∧
    (ProjectGroupResource.Read.planRoles formatRFC3339
        [⟨.StringValue "admin", .BoolNull, .StringNull, .StringNull⟩,
         ⟨.StringValue "admin", .BoolValue false, .StringNull, .StringNull⟩]
        [observedRole "admin" false "", observedRole "viewer" true "1h"])[0]? =
      (ProjectGroupResource.Read.planRoles formatRFC3339
        [⟨.StringValue "admin", .BoolValue false, .StringNull, .StringNull⟩]
        [observedRole "admin" false ""])[0]? :=
  ⟨(smoother_fixed_point_distinct_slugs formatRFC3339
      [⟨.StringValue "admin", .BoolNull, .StringNull, .StringNull⟩,
       ⟨.StringValue "admin", .BoolValue false, .StringNull, .StringNull⟩]
      [observedRole "admin" false "", observedRole "viewer" true "1h"] (by decide)).1,
   ((smoother_fixed_point_distinct_slugs formatRFC3339
      [⟨.StringValue "admin", .BoolNull, .StringNull, .StringNull⟩,
       ⟨.StringValue "admin", .BoolValue false, .StringNull, .StringNull⟩]
      [observedRole "admin" false "", observedRole "viewer" true "1h"] (by decide)).2
      [⟨.StringValue "admin", .BoolNull, .StringNull, .StringNull⟩]
      ⟨.StringValue "admin", .BoolValue false, .StringNull, .StringNull⟩ []
      rfl (by decide)).2 0 (observedRole "admin" false "") rfl rfl⟩
